import Mathlib

set_option maxRecDepth 4000

/-!
Shallow embedding of the wire-protocol codec in `src/pc-app/protocol.py`
(`ProtocolHandler`) and of the session operations in
`src/pc-app/connection_manager.py` (`ConnectionManager`).

Modelling conventions:
* bytes are natural numbers (genuine bytes are `< 256`); byte strings are
  `List Nat`;
* a Python dictionary carrying an event is an insertion-ordered association
  list of JSON-like values;
* a raised Python exception is `none`;
* external library calls whose behaviour the program does not control are
  function parameters: `zc` models `zlib.compress(·, level=1)`, `zd` models
  `zlib.decompress`, `jl` models UTF-8 decoding plus `json.loads`;
  `json.dumps` is modelled concretely for the ASCII, escape-free content
  this program serializes.
-/

/-- A JSON-like value stored in a Python event dictionary: an int, a str,
or a bool. -/
inductive JVal where
  | jn (n : Int)
  | js (s : String)
  | jb (b : Bool)
deriving DecidableEq, Repr

/-- An event dictionary: insertion-ordered key/value pairs. -/
abbrev EventData := List (String × JVal)

/-- Python `dict.get(key, default)`. -/
def dictGet (ev : EventData) (key : String) (dflt : JVal) : JVal :=
  match ev.lookup key with
  | some v => v
  | none => dflt

/-- Python `int(...)` applied to a dictionary value: succeeds on ints and
bools (`int(True) == 1`); a string raises for the non-numeric strings this
program stores, modelled as `none`. -/
def intOf : JVal → Option Int
  | JVal.jn n => some n
  | JVal.jb b => some (if b then 1 else 0)
  | JVal.js _ => none

/-- Python truthiness of a dictionary value (used for `pressed`). -/
def truthy : JVal → Bool
  | JVal.jn n => n != 0
  | JVal.jb b => b
  | JVal.js s => s != ""

/-- The string held by a dictionary value; `none` when the value is not a
str (so string methods on it would raise). -/
def strOf : JVal → Option String
  | JVal.js s => some s
  | _ => none

/-- UTF-8 bytes of an ASCII string (every character below 0x80), which is
the only content this program serializes. -/
def strBytes (s : String) : List Nat := s.data.map Char.toNat

/-- `json.dumps` rendering of one value (ints, escape-free strings,
bools). -/
def dumpJVal : JVal → String
  | JVal.jn n => toString n
  | JVal.js s => "\"" ++ s ++ "\""
  | JVal.jb b => if b then "true" else "false"

/-- `json.dumps(event_data)` with Python's default separators:
`{"k": v, "k2": v2}`. -/
def dumpsStr (ev : EventData) : String :=
  "\x7b" ++ String.intercalate ", "
    (ev.map (fun kv => "\"" ++ kv.1 ++ "\": " ++ dumpJVal kv.2)) ++ "\x7d"

/-- `json.dumps(event_data).encode('utf-8')`. -/
def jdumps (ev : EventData) : List Nat := strBytes (dumpsStr ev)

/-- `json.dumps(events)` for a list of event dictionaries:
`[{...}, {...}]`. -/
def dumpsListStr (evs : List EventData) : String :=
  "[" ++ String.intercalate ", " (evs.map dumpsStr) ++ "]"

/-- `json.dumps(events).encode('utf-8')` for a list of events. -/
def jdumpsList (evs : List EventData) : List Nat := strBytes (dumpsListStr evs)

/-! ### The `struct` module -/

/-- One field of a `struct` format string: `B`, `H`, `I`, `Q` or `Ns`
(all formats in this program are little-endian `<`). -/
inductive PackF where
  | fB
  | fH
  | fI
  | fQ
  | fS (n : Nat)
deriving DecidableEq, Repr

/-- A value passed to `struct.pack` or returned by `struct.unpack`: an
integer or a byte string. -/
inductive PackV where
  | vn (n : Int)
  | vs (bs : List Nat)
deriving DecidableEq, Repr

/-- Little-endian byte string of `n`, `k` bytes wide. -/
def leBytes (k n : Nat) : List Nat := (List.range k).map (fun i => n / 256 ^ i % 256)

/-- Value of a little-endian byte string. -/
def leVal (bs : List Nat) : Nat := bs.foldr (fun b acc => b + 256 * acc) 0

/-- Size in bytes of one format field. -/
def packFieldSize : PackF → Nat
  | PackF.fB => 1
  | PackF.fH => 2
  | PackF.fI => 4
  | PackF.fQ => 8
  | PackF.fS n => n

/-- Pack one field, with CPython's type and range checks (`s` pads with
zero bytes and truncates silently). -/
def packField : PackF → PackV → Option (List Nat)
  | PackF.fB, PackV.vn n => if 0 ≤ n ∧ n < 256 then some [n.toNat] else none
  | PackF.fH, PackV.vn n => if 0 ≤ n ∧ n < 65536 then some (leBytes 2 n.toNat) else none
  | PackF.fI, PackV.vn n => if 0 ≤ n ∧ n < 4294967296 then some (leBytes 4 n.toNat) else none
  | PackF.fQ, PackV.vn n =>
      if 0 ≤ n ∧ n < 18446744073709551616 then some (leBytes 8 n.toNat) else none
  | PackF.fS k, PackV.vs bs => some (bs.take k ++ List.replicate (k - (bs.take k).length) 0)
  | _, _ => none

/-- Pack a matched list of fields and values. -/
def packFields : List PackF → List PackV → Option (List Nat)
  | [], [] => some []
  | f :: fs, v :: vs => do
      let b ← packField f v
      let rest ← packFields fs vs
      pure (b ++ rest)
  | _, _ => none

/-- `struct.pack(fmt, *vals)`: CPython first checks that the argument count
matches the format ("pack expected N items"), then packs each field. -/
def structPack (fmt : List PackF) (vals : List PackV) : Option (List Nat) :=
  if vals.length = fmt.length then packFields fmt vals else none

/-- Decode one field from exactly its bytes. -/
def unpackField (f : PackF) (bs : List Nat) : PackV :=
  match f with
  | PackF.fS _ => PackV.vs bs
  | _ => PackV.vn (Int.ofNat (leVal bs))

/-- Decode a format from a byte string, consuming field by field. -/
def unpackFields : List PackF → List Nat → List PackV
  | [], _ => []
  | f :: fs, bs => unpackField f (bs.take (packFieldSize f)) :: unpackFields fs (bs.drop (packFieldSize f))

/-- `struct.unpack(fmt, data)`: the buffer length must equal the format's
total size exactly, otherwise `struct.error`. -/
def structUnpack (fmt : List PackF) (bs : List Nat) : Option (List PackV) :=
  if bs.length = (fmt.map packFieldSize).sum then some (unpackFields fmt bs) else none

/-! ### `ProtocolHandler` constants -/

def HEADER_MAGIC : Nat := 0xAABB

def PACKET_TYPES : List (String × Nat) :=
  [("MOUSE_MOVEMENT", 0x01), ("MOUSE_CLICK", 0x02), ("KEYBOARD_KEY", 0x03),
   ("SCROLL_EVENT", 0x04), ("GESTURE_START", 0x05), ("GESTURE_END", 0x06),
   ("CONTROL_SWITCH", 0x07), ("HEARTBEAT", 0x08)]

def MOUSE_BUTTONS : List (String × Nat) :=
  [("left", 0x01), ("right", 0x02), ("middle", 0x03), ("x1", 0x04), ("x2", 0x05)]

def CONTROL_EDGES : List (String × Nat) :=
  [("left", 0x01), ("right", 0x02), ("top", 0x03), ("bottom", 0x04),
   ("hotkey", 0x05), ("return_to_pc", 0x06)]

/-! ### Checksum -/

/-- One LSB-first shift step of the CRC register: shift right, folding in
the reflected polynomial 0xA001 when a 1 bit is carried out. -/
def crcRound (crc : Nat) : Nat :=
  if crc % 2 = 1 then (crc / 2) ^^^ 0xA001 else crc / 2

/-- `calculate_checksum`'s treatment of one byte: xor it into the register,
then run the eight-step inner loop. -/
def crcByte (crc b : Nat) : Nat := crcRound^[8] (crc ^^^ b)

/-- `ProtocolHandler.calculate_checksum`: CRC16, initial value 0xFFFF. -/
def calculate_checksum (data : List Nat) : Nat := data.foldl crcByte 0xFFFF

/-- `ProtocolHandler.verify_checksum`: compare the trailing two bytes,
read little-endian, against the checksum of everything before them. -/
def verify_checksum (packet : List Nat) : Bool :=
  if packet.length < 2 then false
  else leVal (packet.drop (packet.length - 2)) == calculate_checksum (packet.take (packet.length - 2))

/-! ### Frame building -/

/-- `ProtocolHandler.build_packet`.  When compression is enabled and the
payload exceeds 64 bytes, `zlib.compress` (`zc`; `none` = the call raised,
swallowed by the bare `except`) is tried and kept only if strictly
smaller, setting bit 7 of the type byte.  The checksum is packed with
`'<H'`, which cannot fail because the register stays below 2^16 for
genuine byte input; it is emitted directly as two little-endian bytes.
Returns the frame and the incremented sequence counter.
`compressPayload` is the compression step, `build_packet` the assembly. -/
def compressPayload (zc : List Nat → Option (List Nat)) (compression_enabled : Bool)
    (packet_type : Nat) (payload : List Nat) : Nat × List Nat :=
  if compression_enabled ∧ payload.length > 64 then
    match zc payload with
    | some comp =>
        if comp.length < payload.length then (packet_type ||| 0x80, comp)
        else (packet_type, payload)
    | none => (packet_type, payload)
  else (packet_type, payload)

def build_packet (zc : List Nat → Option (List Nat)) (compression_enabled : Bool)
    (packet_sequence : Nat) (packet_type : Nat) (payload : List Nat) :
    Option (List Nat × Nat) :=
  match structPack [PackF.fH, PackF.fB]
      [PackV.vn (Int.ofNat HEADER_MAGIC),
       PackV.vn (Int.ofNat (compressPayload zc compression_enabled packet_type payload).1)] with
  | none => none
  | some hdr =>
      hdr ++ (compressPayload zc compression_enabled packet_type payload).2 |>
        (fun pkt => some (pkt ++ leBytes 2 (calculate_checksum pkt), (packet_sequence + 1) % 65536))

/-- `ProtocolHandler.create_mouse_movement_packet`.  The source packs
`'<HHIIQ'` — five format fields — with the four values
`(seq, x, y, timestamp)`, so CPython raises `struct.error` before packing
anything. -/
def create_mouse_movement_packet (zc : List Nat → Option (List Nat)) (en : Bool)
    (packet_sequence : Nat) (ev : EventData) (timestamp : Int) : Option (List Nat × Nat) := do
  let x ← intOf (dictGet ev "x" (JVal.jn 0))
  let y ← intOf (dictGet ev "y" (JVal.jn 0))
  let payload ← structPack [PackF.fH, PackF.fH, PackF.fI, PackF.fI, PackF.fQ]
    [PackV.vn packet_sequence, PackV.vn x, PackV.vn y, PackV.vn timestamp]
  build_packet zc en packet_sequence 0x01 payload

/-- `MOUSE_BUTTONS.get(button, 0x01)` on a dictionary value. -/
def buttonCode (v : JVal) : Nat :=
  match v with
  | JVal.js s => (MOUSE_BUTTONS.lookup s).getD 0x01
  | _ => 0x01

/-- `CONTROL_EDGES.get(edge, 0x01)` on a dictionary value. -/
def edgeCode (v : JVal) : Nat :=
  match v with
  | JVal.js s => (CONTROL_EDGES.lookup s).getD 0x01
  | _ => 0x01

/-- `ProtocolHandler.create_mouse_click_packet`.  The source packs
`'<HIIIBBQ'` — seven format fields — with six values, raising
`struct.error`. -/
def create_mouse_click_packet (zc : List Nat → Option (List Nat)) (en : Bool)
    (packet_sequence : Nat) (ev : EventData) (timestamp : Int) : Option (List Nat × Nat) := do
  let x ← intOf (dictGet ev "x" (JVal.jn 0))
  let y ← intOf (dictGet ev "y" (JVal.jn 0))
  let button_byte := buttonCode (dictGet ev "button" (JVal.js "left"))
  let state_byte : Nat := if truthy (dictGet ev "pressed" (JVal.jb false)) then 0x01 else 0x00
  let payload ← structPack [PackF.fH, PackF.fI, PackF.fI, PackF.fI, PackF.fB, PackF.fB, PackF.fQ]
    [PackV.vn packet_sequence, PackV.vn x, PackV.vn y, PackV.vn button_byte,
     PackV.vn state_byte, PackV.vn timestamp]
  build_packet zc en packet_sequence 0x02 payload

/-- `ProtocolHandler.create_keyboard_packet`.  The source packs
`'<HIBBB16sQ'` — seven format fields — with six values, raising
`struct.error`. -/
def create_keyboard_packet (zc : List Nat → Option (List Nat)) (en : Bool)
    (packet_sequence : Nat) (ev : EventData) (timestamp : Int) : Option (List Nat × Nat) := do
  let key_code ← intOf (dictGet ev "key_code" (JVal.jn 0))
  let key_str ← strOf (dictGet ev "key" (JVal.js ""))
  let key_bytes := (strBytes key_str).take 16
  let key_bytes_padded := key_bytes ++ List.replicate (16 - key_bytes.length) 0
  let state_byte : Nat := if truthy (dictGet ev "pressed" (JVal.jb false)) then 0x01 else 0x00
  let modifiers_byte : Nat := 0x00
  let payload ← structPack
    [PackF.fH, PackF.fI, PackF.fB, PackF.fB, PackF.fB, PackF.fS 16, PackF.fQ]
    [PackV.vn packet_sequence, PackV.vn key_code, PackV.vn state_byte,
     PackV.vn modifiers_byte, PackV.vs key_bytes_padded, PackV.vn timestamp]
  build_packet zc en packet_sequence 0x03 payload

/-- `ProtocolHandler.create_scroll_packet`.  The source packs `'<HIIHHHQ'`
— seven format fields — with six values, raising `struct.error`. -/
def create_scroll_packet (zc : List Nat → Option (List Nat)) (en : Bool)
    (packet_sequence : Nat) (ev : EventData) (timestamp : Int) : Option (List Nat × Nat) := do
  let x ← intOf (dictGet ev "x" (JVal.jn 0))
  let y ← intOf (dictGet ev "y" (JVal.jn 0))
  let dx ← intOf (dictGet ev "dx" (JVal.jn 0))
  let dy ← intOf (dictGet ev "dy" (JVal.jn 0))
  let payload ← structPack [PackF.fH, PackF.fI, PackF.fI, PackF.fH, PackF.fH, PackF.fH, PackF.fQ]
    [PackV.vn packet_sequence, PackV.vn x, PackV.vn y, PackV.vn dx, PackV.vn dy,
     PackV.vn timestamp]
  build_packet zc en packet_sequence 0x04 payload

/-- `ProtocolHandler.create_control_switch_packet`.  The source packs
`'<HBBBQ'` — five format fields — with six values, raising
`struct.error`. -/
def create_control_switch_packet (zc : List Nat → Option (List Nat)) (en : Bool)
    (packet_sequence : Nat) (ev : EventData) (timestamp : Int) : Option (List Nat × Nat) := do
  let edge_byte := edgeCode (dictGet ev "edge" (JVal.js "left"))
  let payload ← structPack [PackF.fH, PackF.fB, PackF.fB, PackF.fB, PackF.fQ]
    [PackV.vn packet_sequence, PackV.vn edge_byte, PackV.vn 0x00, PackV.vn 0x00,
     PackV.vn 0x00, PackV.vn timestamp]
  build_packet zc en packet_sequence 0x07 payload

/-- `ProtocolHandler.create_heartbeat_packet` (`'<HQ'`, the one well-formed
binary creator; `now_ms` models `int(time.time() * 1000)`). -/
def create_heartbeat_packet (zc : List Nat → Option (List Nat)) (en : Bool)
    (packet_sequence : Nat) (now_ms : Int) : Option (List Nat × Nat) := do
  let payload ← structPack [PackF.fH, PackF.fQ] [PackV.vn packet_sequence, PackV.vn now_ms]
  build_packet zc en packet_sequence 0x08 payload

/-- `ProtocolHandler.create_json_packet`: type 0xFF, payload
`pack('<HH', seq, len(json)) + json`. -/
def create_json_packet (zc : List Nat → Option (List Nat)) (en : Bool)
    (packet_sequence : Nat) (ev : EventData) : Option (List Nat × Nat) := do
  let payload ← structPack [PackF.fH, PackF.fH]
    [PackV.vn packet_sequence, PackV.vn (jdumps ev).length]
  build_packet zc en packet_sequence 0xFF (payload ++ jdumps ev)

/-- `ProtocolHandler.create_packet`.  The type lookup uses the event's
`type` string against `PACKET_TYPES`, whose keys are the upper-case
constant names; the dispatch chain below compares against the lower-case
event names.  `now_ms` models `time.time() * 1000` for the timestamp
default. -/
def create_packet (zc : List Nat → Option (List Nat)) (en : Bool) (now_ms : Int)
    (packet_sequence : Nat) (ev : EventData) : Option (List Nat × Nat) := do
  let packet_type := dictGet ev "type" (JVal.js "")
  let timestamp ← intOf (dictGet ev "timestamp" (JVal.jn now_ms))
  let type_byte : Nat :=
    match packet_type with
    | JVal.js s => ((PACKET_TYPES.lookup s).getD 0x00)
    | _ => 0x00
  if type_byte = 0x00 then create_json_packet zc en packet_sequence ev
  else if packet_type = JVal.js "mouse_move" then
    create_mouse_movement_packet zc en packet_sequence ev timestamp
  else if packet_type = JVal.js "mouse_click" then
    create_mouse_click_packet zc en packet_sequence ev timestamp
  else if packet_type = JVal.js "key_press" ∨ packet_type = JVal.js "key_release" then
    create_keyboard_packet zc en packet_sequence ev timestamp
  else if packet_type = JVal.js "mouse_scroll" then
    create_scroll_packet zc en packet_sequence ev timestamp
  else if packet_type = JVal.js "control_switch" then
    create_control_switch_packet zc en packet_sequence ev timestamp
  else create_json_packet zc en packet_sequence ev

/-! ### Frame parsing -/

/-- Reverse lookup used by the parsers' `for name, code in ...` loops:
first name with the given code, else `"unknown"`. -/
def codeName (table : List (String × Nat)) (code : Nat) : String :=
  match table.find? (fun kv => kv.2 == code) with
  | some kv => kv.1
  | none => "unknown"

/-- `.decode('utf-8', errors='ignore')` for the ASCII payloads this
protocol carries. -/
def asciiDecode (bs : List Nat) : String :=
  String.mk ((bs.filter (fun b => b < 128)).map (fun b => Char.ofNat b))

/-- `ProtocolHandler.parse_mouse_movement_packet`: unpack `'<HIIQ'`; a
payload of the wrong length raises, which `parse_packet`'s handler turns
into a rejection. -/
def parse_mouse_movement_packet (payload : List Nat) : Option EventData :=
  match structUnpack [PackF.fH, PackF.fI, PackF.fI, PackF.fQ] payload with
  | some [PackV.vn seq, PackV.vn x, PackV.vn y, PackV.vn ts] =>
      some [("type", JVal.js "mouse_move"), ("sequence", JVal.jn seq),
            ("x", JVal.jn x), ("y", JVal.jn y), ("timestamp", JVal.jn ts)]
  | _ => none

/-- `ProtocolHandler.parse_mouse_click_packet`: the source unpacks the
seven-field `'<HIIIBBQ'` into six variables, so the tuple destructuring
raises `ValueError` on every payload the format accepts. -/
def parse_mouse_click_packet (payload : List Nat) : Option EventData :=
  match structUnpack [PackF.fH, PackF.fI, PackF.fI, PackF.fI, PackF.fB, PackF.fB, PackF.fQ] payload with
  | some [PackV.vn seq, PackV.vn x, PackV.vn y, PackV.vn button, PackV.vn state, PackV.vn ts] =>
      some [("type", JVal.js "mouse_click"), ("sequence", JVal.jn seq),
            ("x", JVal.jn x), ("y", JVal.jn y),
            ("button", JVal.js (codeName MOUSE_BUTTONS button.toNat)),
            ("pressed", JVal.jb (state != 0)), ("timestamp", JVal.jn ts)]
  | _ => none

/-- `ProtocolHandler.parse_keyboard_packet`: the source unpacks the
seven-field `'<HIBBB16sQ'` into six variables — `ValueError` on every
payload the format accepts. -/
def parse_keyboard_packet (payload : List Nat) : Option EventData :=
  match structUnpack [PackF.fH, PackF.fI, PackF.fB, PackF.fB, PackF.fB, PackF.fS 16, PackF.fQ] payload with
  | some [PackV.vn seq, PackV.vn key_code, PackV.vn state, PackV.vn modifiers,
          PackV.vs key_bytes, PackV.vn ts] =>
      some [("type", JVal.js (if state = 1 then "key_press" else "key_release")),
            ("sequence", JVal.jn seq), ("key_code", JVal.jn key_code),
            ("key", JVal.js (asciiDecode ((key_bytes.reverse.dropWhile (fun b => b == 0)).reverse))),
            ("pressed", JVal.jb (state != 0)), ("modifiers", JVal.jn modifiers),
            ("timestamp", JVal.jn ts)]
  | _ => none

/-- `ProtocolHandler.parse_scroll_packet`: the source unpacks the
seven-field `'<HIIHHHQ'` into six variables — `ValueError` on every
payload the format accepts. -/
def parse_scroll_packet (payload : List Nat) : Option EventData :=
  match structUnpack [PackF.fH, PackF.fI, PackF.fI, PackF.fH, PackF.fH, PackF.fH, PackF.fQ] payload with
  | some [PackV.vn seq, PackV.vn x, PackV.vn y, PackV.vn dx, PackV.vn dy, PackV.vn ts] =>
      some [("type", JVal.js "mouse_scroll"), ("sequence", JVal.jn seq),
            ("x", JVal.jn x), ("y", JVal.jn y), ("dx", JVal.jn dx), ("dy", JVal.jn dy),
            ("timestamp", JVal.jn ts)]
  | _ => none

/-- `ProtocolHandler.parse_control_switch_packet`: the source unpacks the
five-field `'<HBBBQ'` into six variables — `ValueError` on every payload
the format accepts. -/
def parse_control_switch_packet (payload : List Nat) : Option EventData :=
  match structUnpack [PackF.fH, PackF.fB, PackF.fB, PackF.fB, PackF.fQ] payload with
  | some [PackV.vn seq, PackV.vn edge, PackV.vn _r1, PackV.vn _r2, PackV.vn _r3, PackV.vn ts] =>
      some [("type", JVal.js "control_switch"), ("sequence", JVal.jn seq),
            ("edge", JVal.js (codeName CONTROL_EDGES edge.toNat)),
            ("timestamp", JVal.jn ts)]
  | _ => none

/-- `ProtocolHandler.parse_heartbeat_packet`: unpack `'<HQ'`. -/
def parse_heartbeat_packet (payload : List Nat) : Option EventData :=
  match structUnpack [PackF.fH, PackF.fQ] payload with
  | some [PackV.vn seq, PackV.vn ts] =>
      some [("type", JVal.js "heartbeat"), ("sequence", JVal.jn seq),
            ("timestamp", JVal.jn ts)]
  | _ => none

/-- `ProtocolHandler.parse_json_packet`: unpack `'<HH'` from the first
four bytes, then decode and `json.loads` (`jl`) the indicated slice. -/
def parse_json_packet (jl : List Nat → Option EventData) (payload : List Nat) :
    Option EventData :=
  match structUnpack [PackF.fH, PackF.fH] (payload.take 4) with
  | some [PackV.vn _seq, PackV.vn json_len] => jl ((payload.drop 4).take json_len.toNat)
  | _ => none

/-- `ProtocolHandler.parse_packet`.  `none` is a rejected packet — whether
by an explicit `return None` or by the surrounding `try`/`except`. -/
def parse_packet (zd : List Nat → Option (List Nat))
    (jl : List Nat → Option EventData) (packet : List Nat) : Option EventData :=
  if packet.length < 5 then none
  else if leVal (packet.take 2) ≠ HEADER_MAGIC then none
  else if verify_checksum packet = false then none
  else
    let type_byte := packet.getD 2 0
    let compressed := type_byte &&& 0x80 ≠ 0
    let packet_type := type_byte &&& 0x7F
    let payload0 := (packet.drop 3).take (packet.length - 5)
    match (if compressed then zd payload0 else some payload0) with
    | none => none
    | some payload =>
        if packet_type = 0x01 then parse_mouse_movement_packet payload
        else if packet_type = 0x02 then parse_mouse_click_packet payload
        else if packet_type = 0x03 then parse_keyboard_packet payload
        else if packet_type = 0x04 then parse_scroll_packet payload
        else if packet_type = 0x07 then parse_control_switch_packet payload
        else if packet_type = 0x08 then parse_heartbeat_packet payload
        else if packet_type = 0xFF then parse_json_packet jl payload
        else none

/-! ### Batching -/

/-- `ProtocolHandler.create_batch_packet`: type 0xFE, payload
`pack('<HH', seq, len(json)) + json`, checksummed but never compressed. -/
def create_batch_packet (events : List EventData) (packet_sequence : Nat) :
    Option (List Nat × Nat) := do
  let payload ← structPack [PackF.fH, PackF.fH]
    [PackV.vn packet_sequence, PackV.vn (jdumpsList events).length]
  let hdr ← structPack [PackF.fH, PackF.fB]
    [PackV.vn (Int.ofNat HEADER_MAGIC), PackV.vn 0xFE]
  (hdr ++ payload ++ jdumpsList events) |> (fun pkt =>
    pure (pkt ++ leBytes 2 (calculate_checksum pkt), (packet_sequence + 1) % 65536))

/-- The loop of `ProtocolHandler.batch_events`, threading the sequence
counter: each event is individually encoded (for its size), a batch is
flushed when adding the event would push the accumulated size of those
individual encodings past `max_size` — unless the batch is still empty. -/
def batchLoop (zc : List Nat → Option (List Nat)) (en : Bool) (now_ms : Int) :
    List EventData → Nat → List (List Nat) → List EventData → Nat → Nat →
    Option (List (List Nat) × Nat)
  | [], seq, packets, current_batch, _current_size, _max_size =>
      match current_batch with
      | [] => some (packets.reverse, seq)
      | _ => do
          let bp ← create_batch_packet current_batch seq
          pure ((bp.1 :: packets).reverse, bp.2)
  | ev :: rest, seq, packets, current_batch, current_size, max_size => do
      let pk ← create_packet zc en now_ms seq ev
      if current_size + pk.1.length > max_size ∧ current_batch ≠ [] then do
        let bp ← create_batch_packet current_batch pk.2
        batchLoop zc en now_ms rest bp.2 (bp.1 :: packets) [ev] pk.1.length max_size
      else
        batchLoop zc en now_ms rest pk.2 packets (current_batch ++ [ev])
          (current_size + pk.1.length) max_size

/-- `ProtocolHandler.batch_events`. -/
def batch_events (zc : List Nat → Option (List Nat)) (en : Bool) (now_ms : Int)
    (events : List EventData) (packet_sequence : Nat) (max_size : Nat) :
    Option (List (List Nat) × Nat) :=
  batchLoop zc en now_ms events packet_sequence [] [] 0 max_size

/-! ### `ConnectionManager` session state -/

/-- The mutable connection state of `ConnectionManager`, together with a
ledger of sockets that have been closed and the state of the
non-reentrant `threading.Lock`. -/
structure CMState where
  lockHeld : Bool
  connected : Bool
  clientSocket : Option Nat
  clientAddress : Option Nat
  deviceName : String
  closedSockets : List Nat
deriving DecidableEq, Repr

/-- The sockets Connected in a state: the session layer has a single
client slot, so this list never holds more than one element. -/
def connectedSockets (st : CMState) : List Nat :=
  if st.connected then
    match st.clientSocket with
    | some s => [s]
    | none => []
  else []

/-- `ConnectionManager.disconnect_client`: `with self.lock:` — acquiring
the non-reentrant lock while it is already held blocks forever, modelled
as `none`.  Closes the client socket (recorded in `closedSockets`) and
clears the session fields. -/
def disconnect_client (st : CMState) : Option CMState :=
  if st.lockHeld then none
  else some
    { st with
      connected := false
      clientSocket := none
      clientAddress := none
      deviceName := ""
      closedSockets :=
        match st.clientSocket with
        | some s => s :: st.closedSockets
        | none => st.closedSockets }

/-- `ConnectionManager.send_packet`: under the lock, fail fast when no
client is connected; otherwise write (`writeOk` models the outcome of
`socket.send`).  The exception handler calls `self.disconnect_client()`
while `self.lock` is still held. -/
def send_packet (st : CMState) (writeOk : Bool) : Option (Bool × CMState) :=
  if st.lockHeld then none
  else
    let stL : CMState := { st with lockHeld := true }
    if ¬ stL.connected ∨ stL.clientSocket = none then
      some (false, { stL with lockHeld := false })
    else if writeOk then some (true, { stL with lockHeld := false })
    else
      match disconnect_client stL with
      | none => none
      | some st2 => some (false, { st2 with lockHeld := false })

/-- A parsed handshake reply (`receive_json` result): its `type` field and
optional `device_name`. -/
structure HandshakeResp where
  rtype : String
  device_name : Option String
deriving DecidableEq, Repr

/-- `ConnectionManager.handle_client_connection` after the handshake
request has been sent on the candidate socket: `resp = none` models
`receive_json` returning `None` (timeout or malformed reply), in which
case — as on a reply of the wrong type — the candidate socket is closed
and the session is untouched.  On a `handshake_response`, any existing
client is disconnected first, then the new socket is installed under the
lock. -/
def handle_client_connection (st : CMState) (sock : Nat) (addr : Nat) :
    Option HandshakeResp → Option CMState
  | some r =>
      if r.rtype = "handshake_response" then
        match (if st.clientSocket.isSome then disconnect_client st else some st) with
        | none => none
        | some st1 =>
            if st1.lockHeld then none
            else some
              { st1 with
                connected := true
                clientSocket := some sock
                clientAddress := some addr
                deviceName := r.device_name.getD "Unknown Device" }
      else some { st with closedSockets := sock :: st.closedSockets }
  | none => some { st with closedSockets := sock :: st.closedSockets }

/-- `ConnectionManager.HEARTBEAT_INTERVAL` in seconds. -/
def HEARTBEAT_INTERVAL : Nat := 5

/-- The heartbeat dictionary `ConnectionManager.heartbeat_monitor` builds:
`{'type': 'heartbeat', 'timestamp': time.time()}` — `time.time()` is unix
seconds, modelled at integer granularity. -/
def heartbeat_message (now_seconds : Int) : EventData :=
  [("type", JVal.js "heartbeat"), ("timestamp", JVal.jn now_seconds)]

/-- One iteration of the heartbeat loop body, entered after the 5-second
sleep: when connected, send the JSON line (`send_json` appends a newline);
when `send_json` reports failure, disconnect.  Returns the new state and
the bytes put on the wire, if any. -/
def heartbeat_tick (st : CMState) (now_seconds : Int) (sendOk : Bool) :
    Option (CMState × Option (List Nat)) :=
  if st.connected then
    let wire := jdumps (heartbeat_message now_seconds) ++ [10]
    if sendOk then some (st, some wire)
    else
      match disconnect_client st with
      | none => none
      | some st2 => some (st2, some wire)
  else some (st, none)

/-! ### Definitions modelled from the spec (for refinement comparisons) -/

/-- Modelled from the spec: §6 documents the heartbeat wire message as
`{"type":"heartbeat","timestamp":<unix-ms>}`, the timestamp in unix
milliseconds. -/
def heartbeat_message_spec (now_ms : Int) : EventData :=
  [("type", JVal.js "heartbeat"), ("timestamp", JVal.jn now_ms)]

/-- Modelled from the spec: §6's MouseMove payload layout
`seq(2) x(4) y(4) timestamp(8)` — the pack format `'<HIIQ'` that the
source's own structure comment documents and that
`parse_mouse_movement_packet` expects. -/
def create_mouse_movement_packet_spec (zc : List Nat → Option (List Nat)) (en : Bool)
    (packet_sequence : Nat) (x y ts : Int) : Option (List Nat × Nat) := do
  let payload ← structPack [PackF.fH, PackF.fI, PackF.fI, PackF.fQ]
    [PackV.vn packet_sequence, PackV.vn x, PackV.vn y, PackV.vn ts]
  build_packet zc en packet_sequence 0x01 payload

/-- One bit step of the spec's checksum description: xor the incoming bit
with the register's least significant bit, shift right, and fold in the
reflected polynomial 0xA001 when that xor was 1. -/
def crcBitStep (crc : Nat) (bit : Bool) : Nat :=
  let x := (crc % 2 + (if bit then 1 else 0)) % 2
  if x = 1 then (crc / 2) ^^^ 0xA001 else crc / 2

/-- The `j` low bits of `b`, least significant first. -/
def lowBits : Nat → Nat → List Bool
  | 0, _ => []
  | j + 1, b => decide (b % 2 = 1) :: lowBits j (b / 2)

/-- Modelled from the spec: "16-bit CRC, initial value 0xFFFF, reflected
polynomial 0xA001, processed byte-by-byte LSB-first over every byte
preceding the checksum field itself". -/
def crc16_spec (data : List Nat) : Nat :=
  data.foldl (fun crc b => (lowBits 8 b).foldl crcBitStep crc) 0xFFFF

/-- Flip bit `k` of the byte at index `i` (used to state checksum
sensitivity). -/
def flipBit (l : List Nat) (i k : Nat) : List Nat :=
  l.set i ((l.getD i 0) ^^^ (1 <<< k))

/-- The shape every frame assembled by `build_packet` and
`create_batch_packet` takes: magic bytes, type byte, payload bytes,
little-endian CRC16 of everything preceding the checksum. -/
def mkFrame (t : Nat) (payload : List Nat) : List Nat :=
  0xBB :: 0xAA :: t :: payload ++ leBytes 2 (calculate_checksum (0xBB :: 0xAA :: t :: payload))

/-- The raw payload `create_json_packet` hands to `build_packet`:
sequence number, JSON length, JSON bytes. -/
def json_payload (seq : Nat) (ev : EventData) : List Nat :=
  leBytes 2 seq ++ leBytes 2 (jdumps ev).length ++ jdumps ev

/-- A compressor model whose every call raises, standing in for `zlib`
when a closed run is needed (the source swallows compress errors and
sends the raw payload). -/
def zlibNone : List Nat → Option (List Nat) := fun _ => none

/-- A `json.loads` model whose every call raises. -/
def jlNone : List Nat → Option EventData := fun _ => none

/-- The MouseMove event of spec scenario A, keyed as `input_capture.py`
builds it. -/
def mouseMoveEv : EventData :=
  [("type", JVal.js "mouse_move"), ("x", JVal.jn 100), ("y", JVal.jn 200),
   ("timestamp", JVal.jn 1000)]

/-- A minimal heartbeat event record. -/
def heartbeatEv : EventData :=
  [("type", JVal.js "heartbeat"), ("timestamp", JVal.jn 1000)]

/-- The type tags of the supported event kinds. -/
def KIND_TAGS : List JVal :=
  [JVal.js "mouse_move", JVal.js "mouse_click", JVal.js "key_press", JVal.js "key_release",
   JVal.js "mouse_scroll", JVal.js "control_switch", JVal.js "heartbeat"]

/-- A Connected session state used for concrete runs. -/
def connState : CMState :=
  { lockHeld := false, connected := true, clientSocket := some 7, clientAddress := some 1,
    deviceName := "dev", closedSockets := [] }

/-- An idle session state used for concrete runs. -/
def idleState : CMState :=
  { lockHeld := false, connected := false, clientSocket := none, clientAddress := none,
    deviceName := "", closedSockets := [] }

/-- The state `disconnect_client` leaves behind when the lock is free. -/
def disconnectedState (st : CMState) : CMState :=
  { st with
    connected := false
    clientSocket := none
    clientAddress := none
    deviceName := ""
    closedSockets :=
      match st.clientSocket with
      | some s => s :: st.closedSockets
      | none => st.closedSockets }

/-- Size of one individually encoded (JSON-fallback, uncompressed) event
frame: 3 header bytes + 2 sequence + 2 length + JSON + 2 checksum. -/
def evSize (ev : EventData) : Nat := 9 + (jdumps ev).length

/-- The frame `create_batch_packet` builds for a chunk at a given
sequence number: type 0xFE, payload = sequence, 2-byte JSON length, JSON
array of the original event records. -/
def batchFrame (events : List EventData) (seq : Nat) : List Nat :=
  mkFrame 0xFE (leBytes 2 seq ++ leBytes 2 (jdumpsList events).length ++ jdumpsList events)

/-- The checksum-covered prefix of a frame: magic bytes, type byte,
payload. -/
def frameBody (t : Nat) (payload : List Nat) : List Nat :=
  0xBB :: 0xAA :: t :: payload

/-- A value `s` is the serialized size of one individually encoded event
exactly as the `batch_events` loop measures it: the length of a frame
`create_packet` produced for the event at some sequence number, under the
run's compressor and compression setting. -/
def encSize (zc : List Nat → Option (List Nat)) (en : Bool) (now : Int)
    (ev : EventData) (s : Nat) : Prop :=
  ∃ (q : Nat) (f : List Nat) (r : Nat),
    create_packet zc en now q ev = some (f, r) ∧ s = f.length

/-! ### Little-endian helpers -/

theorem leBytes_two (c : Nat) : leBytes 2 c = [c % 256, c / 256 % 256] := by
  norm_num [leBytes, List.range_succ]

theorem leVal_pair (a b : Nat) : leVal [a, b] = a + 256 * b := by
  simp [leVal]

theorem leVal_leBytes_two {c : Nat} (h : c < 65536) : leVal (leBytes 2 c) = c := by
  rw [leBytes_two, leVal_pair]
  have h1 : c / 256 < 256 := by omega
  rw [Nat.mod_eq_of_lt h1]
  omega

/-! ### CRC register facts -/

theorem crcRound_lt {s : Nat} (h : s < 65536) : crcRound s < 65536 := by
  unfold crcRound
  split
  · have h1 : s / 2 < 2 ^ 16 := by omega
    have h2 : (0xA001 : Nat) < 2 ^ 16 := by norm_num
    have := Nat.xor_lt_two_pow h1 h2
    omega
  · omega

theorem crcIter_lt (n : Nat) {s : Nat} (h : s < 65536) : crcRound^[n] s < 65536 := by
  induction n generalizing s with
  | zero => simpa using h
  | succ n ih =>
      rw [Function.iterate_succ_apply]
      exact ih (crcRound_lt h)

theorem crcRound_inj {a b : Nat} (ha : a < 65536) (hb : b < 65536)
    (h : crcRound a = crcRound b) : a = b := by
  unfold crcRound at h
  by_cases h1 : a % 2 = 1 <;> by_cases h2 : b % 2 = 1 <;> simp only [h1, h2, if_pos, if_neg,
    reduceIte] at h
  · have := Nat.xor_left_injective (n := 0xA001) h
    omega
  · exfalso
    have hbit : ((a / 2) ^^^ 0xA001).testBit 15 = true := by
      have hlt : a / 2 < 2 ^ 15 := by omega
      rw [Nat.testBit_xor, Nat.testBit_eq_false_of_lt hlt]
      decide
    rw [h] at hbit
    have hlt2 : b / 2 < 2 ^ 15 := by omega
    rw [Nat.testBit_eq_false_of_lt hlt2] at hbit
    exact Bool.false_ne_true hbit
  · exfalso
    have hbit : ((b / 2) ^^^ 0xA001).testBit 15 = true := by
      have hlt : b / 2 < 2 ^ 15 := by omega
      rw [Nat.testBit_xor, Nat.testBit_eq_false_of_lt hlt]
      decide
    rw [← h] at hbit
    have hlt2 : a / 2 < 2 ^ 15 := by omega
    rw [Nat.testBit_eq_false_of_lt hlt2] at hbit
    exact Bool.false_ne_true hbit
  · omega

theorem crcIter_inj (n : Nat) {a b : Nat} (ha : a < 65536) (hb : b < 65536)
    (h : crcRound^[n] a = crcRound^[n] b) : a = b := by
  induction n generalizing a b with
  | zero => simpa using h
  | succ n ih =>
      rw [Function.iterate_succ_apply, Function.iterate_succ_apply] at h
      exact crcRound_inj ha hb (ih (crcRound_lt ha) (crcRound_lt hb) h)

theorem xor_lt_65536 {x y : Nat} (hx : x < 65536) (hy : y < 65536) : x ^^^ y < 65536 := by
  have h1 : x < 2 ^ 16 := by omega
  have h2 : y < 2 ^ 16 := by omega
  have := Nat.xor_lt_two_pow h1 h2
  omega

theorem crcByte_lt {s x : Nat} (hs : s < 65536) (hx : x < 65536) : crcByte s x < 65536 :=
  crcIter_lt 8 (xor_lt_65536 hs hx)

theorem crcByte_inj_state {s1 s2 x : Nat} (h1 : s1 < 65536) (h2 : s2 < 65536)
    (hx : x < 65536) (hne : s1 ≠ s2) : crcByte s1 x ≠ crcByte s2 x := by
  intro hc
  have h := crcIter_inj 8 (xor_lt_65536 h1 hx) (xor_lt_65536 h2 hx) hc
  exact hne (Nat.xor_left_injective h)

theorem crcByte_inj_byte {s x1 x2 : Nat} (hs : s < 65536) (hx1 : x1 < 65536)
    (hx2 : x2 < 65536) (hne : x1 ≠ x2) : crcByte s x1 ≠ crcByte s x2 := by
  intro hc
  have h := crcIter_inj 8 (xor_lt_65536 hs hx1) (xor_lt_65536 hs hx2) hc
  exact hne (Nat.xor_right_injective h)

theorem xor_pow_ne {x : Nat} (k : Nat) : x ^^^ 2 ^ k ≠ x := by
  intro hc
  have h0 : x ^^^ 2 ^ k = x ^^^ 0 := by simpa using hc
  have := Nat.xor_right_injective h0
  have hpos : 0 < 2 ^ k := Nat.pos_pow_of_pos k (by omega)
  omega

theorem crcFold_lt : ∀ (l : List Nat) {s : Nat}, s < 65536 → (∀ b ∈ l, b < 65536) →
    l.foldl crcByte s < 65536 := by
  intro l
  induction l with
  | nil => intro s hs _; simpa using hs
  | cons b rest ih =>
      intro s hs hb
      simp only [List.foldl_cons]
      exact ih (crcByte_lt hs (hb b (by simp))) (fun x hx => hb x (by simp [hx]))

theorem crcFold_ne : ∀ (l : List Nat) {s1 s2 : Nat}, s1 < 65536 → s2 < 65536 →
    (∀ b ∈ l, b < 65536) → s1 ≠ s2 → l.foldl crcByte s1 ≠ l.foldl crcByte s2 := by
  intro l
  induction l with
  | nil => intro s1 s2 _ _ _ hne; simpa using hne
  | cons b rest ih =>
      intro s1 s2 h1 h2 hb hne
      simp only [List.foldl_cons]
      have hbb : b < 65536 := hb b (by simp)
      exact ih (crcByte_lt h1 hbb) (crcByte_lt h2 hbb) (fun x hx => hb x (by simp [hx]))
        (crcByte_inj_state h1 h2 hbb hne)

theorem crcFold_set_ne : ∀ (l : List Nat) (i k : Nat) {s : Nat}, s < 65536 → i < l.length →
    k < 8 → (∀ b ∈ l, b < 256) →
    (l.set i (l.getD i 0 ^^^ 1 <<< k)).foldl crcByte s ≠ l.foldl crcByte s := by
  intro l
  induction l with
  | nil => intro i k s _ hi; simp at hi
  | cons b rest ih =>
      intro i k s hs hi hk hb
      cases i with
      | zero =>
          simp only [List.set_cons_zero, List.getD_cons_zero, List.foldl_cons]
          have hbb : b < 256 := hb b (by simp)
          have hk2 : 2 ^ k < 65536 := by
            have : 2 ^ k ≤ 2 ^ 8 := Nat.pow_le_pow_right (by omega) (by omega)
            omega
          rw [Nat.one_shiftLeft]
          apply crcFold_ne rest
            (crcByte_lt hs (xor_lt_65536 (by omega) hk2)) (crcByte_lt hs (by omega))
            (fun x hx => by have := hb x (by simp [hx]); omega)
          exact crcByte_inj_byte hs (xor_lt_65536 (by omega) hk2) (by omega) (xor_pow_ne k)
      | succ i =>
          simp only [List.set_cons_succ, List.getD_cons_succ, List.foldl_cons]
          have hbb : b < 256 := hb b (by simp)
          exact ih i k (crcByte_lt hs (by omega)) (by simpa using hi) hk
            (fun x hx => hb x (by simp [hx]))

theorem calculate_checksum_lt {l : List Nat} (hb : ∀ b ∈ l, b < 256) :
    calculate_checksum l < 65536 :=
  crcFold_lt l (by norm_num) (fun x hx => by have := hb x hx; omega)


/-! ### Shape lemmas for frame construction -/

theorem structPack_HB {t : Nat} (ht : t < 256) :
    structPack [PackF.fH, PackF.fB] [PackV.vn (Int.ofNat HEADER_MAGIC), PackV.vn (Int.ofNat t)] =
      some [0xBB, 0xAA, t] := by
  simp [structPack, packFields, packField, HEADER_MAGIC, leBytes_two, ht]

theorem structPack_HB_none {t : Nat} (ht : ¬ t < 256) :
    structPack [PackF.fH, PackF.fB] [PackV.vn (Int.ofNat HEADER_MAGIC), PackV.vn (Int.ofNat t)] =
      none := by
  simp [structPack, packFields, packField, HEADER_MAGIC, ht]

theorem structPack_HH {a b : Nat} (ha : a < 65536) (hb : b < 65536) :
    structPack [PackF.fH, PackF.fH] [PackV.vn (a : Int), PackV.vn (b : Int)] =
      some (leBytes 2 a ++ leBytes 2 b) := by
  simp [structPack, packFields, packField, ha, hb]

theorem structPack_HH_none {a b : Nat} (ha : ¬ a < 65536) :
    structPack [PackF.fH, PackF.fH] [PackV.vn (a : Int), PackV.vn (b : Int)] = none := by
  simp [structPack, packFields, packField, ha]

/-- When the gate fires, the compressor output goes out with bit 7 set. -/
theorem compressPayload_of_gate (zc : List Nat → Option (List Nat)) (en : Bool)
    (t : Nat) (payload c : List Nat) (hen : en = true) (hlen : payload.length > 64)
    (hzc : zc payload = some c) (hc : c.length < payload.length) :
    compressPayload zc en t payload = (t ||| 128, c) := by
  simp [compressPayload, hen, hlen, hzc, hc]

/-- The compression step either leaves the type byte and payload alone, or
— exactly under the documented gate — substitutes the strictly smaller
compressor output and sets bit 7. -/
theorem compressPayload_cases (zc : List Nat → Option (List Nat)) (en : Bool)
    (t : Nat) (payload : List Nat) :
    compressPayload zc en t payload = (t, payload) ∨
      ∃ c, zc payload = some c ∧ c.length < payload.length ∧ en = true ∧
        payload.length > 64 ∧ compressPayload zc en t payload = (t ||| 128, c) := by
  by_cases hgate : en = true ∧ payload.length > 64
  · rcases hzc : zc payload with _ | c
    · exact Or.inl (by simp [compressPayload, hgate.1, hgate.2, hzc])
    · by_cases hlen : c.length < payload.length
      · exact Or.inr ⟨c, rfl, hlen, hgate.1, hgate.2,
          compressPayload_of_gate zc en t payload c hgate.1 hgate.2 hzc hlen⟩
      · refine Or.inl ?_
        simp [compressPayload, hgate.1, hgate.2, hzc, hlen]
  · refine Or.inl ?_
    unfold compressPayload
    rw [if_neg (by simpa using hgate)]

/-- When the gate does not fire the payload goes out unmodified. -/
theorem compressPayload_of_not_gate (zc : List Nat → Option (List Nat)) (en : Bool)
    (t : Nat) (payload : List Nat)
    (h : ¬ (en = true ∧ payload.length > 64 ∧
      ∃ c, zc payload = some c ∧ c.length < payload.length)) :
    compressPayload zc en t payload = (t, payload) := by
  rcases compressPayload_cases zc en t payload with hcp | ⟨c, hzc, hlen, hen, hbig, _⟩
  · exact hcp
  · exact absurd ⟨hen, hbig, c, hzc, hlen⟩ h



/-- `build_packet` never fails for a gated type byte below 256, producing a
`mkFrame` of the gated type byte and payload. -/
theorem build_packet_eq (zc : List Nat → Option (List Nat)) (en : Bool) (seq t : Nat)
    (payload : List Nat) (ht : (compressPayload zc en t payload).1 < 256) :
    build_packet zc en seq t payload =
      some (mkFrame (compressPayload zc en t payload).1 (compressPayload zc en t payload).2,
        (seq + 1) % 65536) := by
  unfold build_packet
  rw [structPack_HB ht]
  simp [mkFrame]

/-- A gated type byte of 256 or more makes `struct.pack('<HB', ...)` raise. -/
theorem build_packet_none (zc : List Nat → Option (List Nat)) (en : Bool) (seq t : Nat)
    (payload : List Nat) (ht : ¬ (compressPayload zc en t payload).1 < 256) :
    build_packet zc en seq t payload = none := by
  unfold build_packet
  rw [structPack_HB_none ht]

/-- Forward shape of a successful `build_packet`. -/
theorem build_packet_shape {zc : List Nat → Option (List Nat)} {en : Bool} {seq t : Nat}
    {payload f : List Nat} {s' : Nat}
    (h : build_packet zc en seq t payload = some (f, s')) :
    s' = (seq + 1) % 65536 ∧
      (f = mkFrame t payload ∨
        ∃ c, zc payload = some c ∧ c.length < payload.length ∧ en = true ∧
          payload.length > 64 ∧ f = mkFrame (t ||| 128) c) := by
  by_cases ht : (compressPayload zc en t payload).1 < 256
  · rw [build_packet_eq zc en seq t payload ht] at h
    simp only [Option.some.injEq, Prod.mk.injEq] at h
    rcases compressPayload_cases zc en t payload with hcp | ⟨c, hzc, hlen, hen, hbig, hcp⟩
    · rw [hcp] at h
      exact ⟨h.2.symm, Or.inl h.1.symm⟩
    · rw [hcp] at h
      exact ⟨h.2.symm, Or.inr ⟨c, hzc, hlen, hen, hbig, h.1.symm⟩⟩
  · rw [build_packet_none zc en seq t payload ht] at h
    simp at h

/-- `build_packet` with compression disabled is plain framing. -/
theorem build_packet_uncompressed (zc : List Nat → Option (List Nat)) (seq t : Nat)
    (payload : List Nat) (ht : t < 256) :
    build_packet zc false seq t payload = some (mkFrame t payload, (seq + 1) % 65536) := by
  have hcp : compressPayload zc false t payload = (t, payload) := by
    simp [compressPayload]
  rw [build_packet_eq zc false seq t payload (by rw [hcp]; exact ht), hcp]

theorem structPack_HH_none_right {a b : Nat} (ha : a < 65536) (hb : ¬ b < 65536) :
    structPack [PackF.fH, PackF.fH] [PackV.vn (a : Int), PackV.vn (b : Int)] = none := by
  simp [structPack, packFields, packField, ha, hb]

/-! ### The encoders all take the JSON fallback -/

theorem create_json_packet_eq (zc : List Nat → Option (List Nat)) (en : Bool)
    {seq : Nat} {ev : EventData} (hs : seq < 65536) (hl : (jdumps ev).length < 65536) :
    create_json_packet zc en seq ev = build_packet zc en seq 0xFF (json_payload seq ev) := by
  unfold create_json_packet
  rw [structPack_HH hs hl]
  simp [json_payload]

theorem create_json_packet_bounds {zc : List Nat → Option (List Nat)} {en : Bool}
    {seq : Nat} {ev : EventData} {out : List Nat × Nat}
    (h : create_json_packet zc en seq ev = some out) :
    seq < 65536 ∧ (jdumps ev).length < 65536 := by
  by_cases hs : seq < 65536
  · by_cases hl : (jdumps ev).length < 65536
    · exact ⟨hs, hl⟩
    · exfalso
      unfold create_json_packet at h
      rw [structPack_HH_none_right hs hl] at h
      simp at h
  · exfalso
    unfold create_json_packet at h
    rw [structPack_HH_none hs] at h
    simp at h

/-- `create_mouse_movement_packet` always raises: `'<HHIIQ'` has five
fields, the call passes four values. -/
theorem create_mouse_movement_packet_none (zc : List Nat → Option (List Nat)) (en : Bool)
    (seq : Nat) (ev : EventData) (ts : Int) :
    create_mouse_movement_packet zc en seq ev ts = none := by
  unfold create_mouse_movement_packet
  cases intOf (dictGet ev "x" (JVal.jn 0)) <;>
    cases intOf (dictGet ev "y" (JVal.jn 0)) <;>
      simp [structPack]

/-- `create_mouse_click_packet` always raises: `'<HIIIBBQ'` has seven
fields, the call passes six values. -/
theorem create_mouse_click_packet_none (zc : List Nat → Option (List Nat)) (en : Bool)
    (seq : Nat) (ev : EventData) (ts : Int) :
    create_mouse_click_packet zc en seq ev ts = none := by
  unfold create_mouse_click_packet
  cases intOf (dictGet ev "x" (JVal.jn 0)) <;>
    cases intOf (dictGet ev "y" (JVal.jn 0)) <;>
      simp [structPack]

/-- `create_keyboard_packet` always raises: `'<HIBBB16sQ'` has seven
fields, the call passes six values. -/
theorem create_keyboard_packet_none (zc : List Nat → Option (List Nat)) (en : Bool)
    (seq : Nat) (ev : EventData) (ts : Int) :
    create_keyboard_packet zc en seq ev ts = none := by
  unfold create_keyboard_packet
  cases intOf (dictGet ev "key_code" (JVal.jn 0)) <;>
    cases strOf (dictGet ev "key" (JVal.js "")) <;>
      simp [structPack]

/-- `create_scroll_packet` always raises: `'<HIIHHHQ'` has seven fields,
the call passes six values. -/
theorem create_scroll_packet_none (zc : List Nat → Option (List Nat)) (en : Bool)
    (seq : Nat) (ev : EventData) (ts : Int) :
    create_scroll_packet zc en seq ev ts = none := by
  unfold create_scroll_packet
  cases intOf (dictGet ev "x" (JVal.jn 0)) <;>
    cases intOf (dictGet ev "y" (JVal.jn 0)) <;>
      cases intOf (dictGet ev "dx" (JVal.jn 0)) <;>
        cases intOf (dictGet ev "dy" (JVal.jn 0)) <;>
          simp [structPack]

/-- `create_control_switch_packet` always raises: `'<HBBBQ'` has five
fields, the call passes six values. -/
theorem create_control_switch_packet_none (zc : List Nat → Option (List Nat)) (en : Bool)
    (seq : Nat) (ev : EventData) (ts : Int) :
    create_control_switch_packet zc en seq ev ts = none := by
  unfold create_control_switch_packet
  simp [structPack]

/-- No lower-case event name is a key of `PACKET_TYPES`. -/
theorem lookup_lower_ne (s : String) (v : Nat) (hl : PACKET_TYPES.lookup s = some v) :
    s ≠ "mouse_move" ∧ s ≠ "mouse_click" ∧ s ≠ "key_press" ∧ s ≠ "key_release" ∧
      s ≠ "mouse_scroll" ∧ s ≠ "control_switch" := by
  refine ⟨?_, ?_, ?_, ?_, ?_, ?_⟩ <;> intro hs <;> subst hs <;>
    simp [PACKET_TYPES, List.lookup] at hl

/-- `create_packet` reduces to the JSON fallback on every input whose
`timestamp` coerces: the `PACKET_TYPES` keys are the upper-case constant
names, so either the lookup misses (type byte 0) or the lower-case
dispatch chain misses. -/
theorem create_packet_eq_json (zc : List Nat → Option (List Nat)) (en : Bool)
    (now : Int) (seq : Nat) (ev : EventData) {u : Int}
    (hts : intOf (dictGet ev "timestamp" (JVal.jn now)) = some u) :
    create_packet zc en now seq ev = create_json_packet zc en seq ev := by
  unfold create_packet
  rw [hts, Option.bind_eq_bind]
  simp only [Option.some_bind]
  generalize hty : dictGet ev "type" (JVal.js "") = tv
  cases tv with
  | jn n => rfl
  | jb b => rfl
  | js s =>
      split
      · rfl
      · rename_i hv
        rcases hl : PACKET_TYPES.lookup s with _ | v
        · exfalso
          simp [hl] at hv
        · obtain ⟨h1, h2, h3, h4, h5, h6⟩ := lookup_lower_ne s v hl
          rw [if_neg (by simp [h1]), if_neg (by simp [h2]), if_neg (by simp [h3, h4]),
            if_neg (by simp [h5]), if_neg (by simp [h6])]

/-- A `timestamp` value that `int()` cannot coerce propagates as an
exception out of `create_packet`. -/
theorem create_packet_none_of_ts (zc : List Nat → Option (List Nat)) (en : Bool)
    (now : Int) (seq : Nat) (ev : EventData)
    (hts : intOf (dictGet ev "timestamp" (JVal.jn now)) = none) :
    create_packet zc en now seq ev = none := by
  unfold create_packet
  rw [hts, Option.bind_eq_bind]
  rfl

/-- Every successful `create_packet` went through the JSON fallback. -/
theorem create_packet_some_shape {zc : List Nat → Option (List Nat)} {en : Bool}
    {now : Int} {seq : Nat} {ev : EventData} {f : List Nat} {s' : Nat}
    (h : create_packet zc en now seq ev = some (f, s')) :
    seq < 65536 ∧ (jdumps ev).length < 65536 ∧ s' = (seq + 1) % 65536 ∧
      build_packet zc en seq 0xFF (json_payload seq ev) = some (f, s') := by
  rcases hts : intOf (dictGet ev "timestamp" (JVal.jn now)) with _ | ts
  · rw [create_packet_none_of_ts zc en now seq ev hts] at h
    cases h
  · rw [create_packet_eq_json zc en now seq ev hts] at h
    have hb := create_json_packet_bounds h
    rw [create_json_packet_eq zc en hb.1 hb.2] at h
    exact ⟨hb.1, hb.2, (build_packet_shape h).1, h⟩

/-- No frame whose type byte is 0xFF is ever accepted: the parser reads
bit 7 as the compression flag and then dispatches on 0x7F, which is not a
known type code. -/
theorem parse_ff_frame_none (zd : List Nat → Option (List Nat))
    (jl : List Nat → Option EventData) (rest : List Nat) :
    parse_packet zd jl (0xBB :: 0xAA :: 0xFF :: rest) = none := by
  unfold parse_packet
  split
  · rfl
  · split
    · rfl
    · split
      · rfl
      · simp only [List.length_cons, List.drop_succ_cons, List.drop_zero]
        rcases hz : zd (List.take (rest.length + 1 + 1 + 1 - 5) rest) with _ | p <;>
          simp [hz, show (255 &&& 127 : Nat) = 127 from rfl]

/-! ### Concrete instantiations of the library parameters -/

/-- Every successful `create_packet` emits a frame beginning
`BB AA FF`: the JSON fallback's type byte survives the compression gate
because `0xFF ||| 0x80 = 0xFF`. -/
theorem create_packet_json_frame (zc : List Nat → Option (List Nat)) (en : Bool)
    (now : Int) (seq : Nat) (ev : EventData) {t : Int}
    (hseq : seq < 65536) (hlen : (jdumps ev).length < 65536)
    (hts : intOf (dictGet ev "timestamp" (JVal.jn now)) = some t) :
    ∃ rest, create_packet zc en now seq ev =
      some (0xBB :: 0xAA :: 0xFF :: rest, (seq + 1) % 65536) := by
  rw [create_packet_eq_json zc en now seq ev hts]
  rw [create_json_packet_eq zc en hseq hlen]
  have hFF : (compressPayload zc en 0xFF (json_payload seq ev)).1 = 0xFF := by
    rcases compressPayload_cases zc en 0xFF (json_payload seq ev) with h | ⟨c, _, _, _, _, h⟩
    · rw [h]
    · rw [h]
      show (255 ||| 128 : Nat) = 255
      decide
  rw [build_packet_eq zc en seq 0xFF (json_payload seq ev) (by rw [hFF]; norm_num)]
  rw [hFF]
  exact ⟨_, rfl⟩

/-! ### Claims -/

/-- C1: the claimed round trip fails on the code.  For every supported
event kind and valid field values, `create_packet` succeeds — but it
always emits a type-0xFF JSON-fallback frame (the `PACKET_TYPES` keys are
the upper-case constant names, never the event's lower-case `type`
strings), and `parse_packet` rejects every type-0xFF frame because bit 7
of the type byte doubles as the compression flag.  So
`parse_packet (create_packet e)` is `None` for every kind instead of
reproducing `e`. -/
theorem claim_C1 (zc zd : List Nat → Option (List Nat)) (jl : List Nat → Option EventData)
    (en : Bool) (now : Int) (seq : Nat) (ev : EventData)
    (hseq : seq < 65536) (hlen : (jdumps ev).length < 65536)
    (_hkind : ∃ s, dictGet ev "type" (JVal.js "") = JVal.js s ∧
      s ∈ ["mouse_move", "mouse_click", "key_press", "key_release", "mouse_scroll",
           "control_switch", "heartbeat"])
    (hts : ∃ t : Int, dictGet ev "timestamp" (JVal.jn now) = JVal.jn t) :
    ∃ frame, create_packet zc en now seq ev = some (frame, (seq + 1) % 65536) ∧
      parse_packet zd jl frame = none := by
  obtain ⟨t, ht⟩ := hts
  obtain ⟨rest, hc⟩ := create_packet_json_frame zc en now seq ev hseq hlen
    (t := t) (by rw [ht]; rfl)
  exact ⟨_, hc, parse_ff_frame_none zd jl rest⟩

theorem claim_C1_witness :
    ∃ frame, create_packet zlibNone true 0 0 mouseMoveEv = some (frame, (0 + 1) % 65536) ∧
      parse_packet zlibNone jlNone frame = none :=
  claim_C1 zlibNone zlibNone jlNone true 0 0 mouseMoveEv (by decide) (by decide)
    ⟨"mouse_move", by decide, by decide⟩ ⟨1000, by decide⟩

/-- C2: the claimed scenario fails on the code.  Encoding
MouseMove(x=100, y=200, timestamp=1000) through `create_packet` yields a
70-byte type-0xFF JSON frame (not a 23-byte 0x01 frame), and decoding
that frame returns `None`; calling the cited
`create_mouse_movement_packet` directly raises `struct.error` (`'<HHIIQ'`
has five fields, four values are passed).  The spec-documented layout
`'<HIIQ'` (`create_mouse_movement_packet_spec`, exactly the source's own
structure comment) does produce a 23-byte 0x01 frame that decodes back to
the event — showing the format string is a slip. -/
theorem claim_C2 :
    (∀ (zc : List Nat → Option (List Nat)) (en : Bool) (seq : Nat) (ts : Int),
      create_mouse_movement_packet zc en seq mouseMoveEv ts = none) ∧
    ((create_packet zlibNone true 1000 0 mouseMoveEv).map
      (fun p => (p.1.length, p.1.getD 2 0, p.2)) = some (70, 0xFF, 1)) ∧
    (∀ (zd : List Nat → Option (List Nat)) (jl : List Nat → Option EventData),
      (create_packet zlibNone true 1000 0 mouseMoveEv).bind
        (fun p => parse_packet zd jl p.1) = none) ∧
    ((create_mouse_movement_packet_spec zlibNone true 0 100 200 1000).map
      (fun p => (p.1.length, p.1.getD 2 0, p.2)) = some (23, 0x01, 1)) ∧
    ((create_mouse_movement_packet_spec zlibNone true 0 100 200 1000).bind
      (fun p => parse_packet zlibNone jlNone p.1) =
      some [("type", JVal.js "mouse_move"), ("sequence", JVal.jn 0), ("x", JVal.jn 100),
            ("y", JVal.jn 200), ("timestamp", JVal.jn 1000)]) := by
  refine ⟨fun zc en seq ts => create_mouse_movement_packet_none zc en seq mouseMoveEv ts,
    by decide, ?_, by decide, by decide⟩
  intro zd jl
  obtain ⟨rest, hc⟩ := create_packet_json_frame zlibNone true 1000 0 mouseMoveEv
    (t := 1000) (by decide) (by decide) (by decide)
  rw [hc]
  simp only [Option.some_bind, Option.bind_eq_bind]
  exact parse_ff_frame_none zd jl rest

/-! ### Parser totality (C10) -/

theorem parse_mouse_movement_tag {payload : List Nat} {e : EventData}
    (h : parse_mouse_movement_packet payload = some e) :
    dictGet e "type" (JVal.js "") ∈ KIND_TAGS := by
  unfold parse_mouse_movement_packet at h
  split at h
  · simp only [Option.some.injEq] at h
    subst h
    simp [dictGet, KIND_TAGS]
  · exact absurd h (by simp)

theorem parse_mouse_click_tag {payload : List Nat} {e : EventData}
    (h : parse_mouse_click_packet payload = some e) :
    dictGet e "type" (JVal.js "") ∈ KIND_TAGS := by
  unfold parse_mouse_click_packet at h
  split at h
  · simp only [Option.some.injEq] at h
    subst h
    simp [dictGet, KIND_TAGS]
  · exact absurd h (by simp)

theorem parse_keyboard_tag {payload : List Nat} {e : EventData}
    (h : parse_keyboard_packet payload = some e) :
    dictGet e "type" (JVal.js "") ∈ KIND_TAGS := by
  unfold parse_keyboard_packet at h
  split at h
  · rename_i seq kc state mods kb ts heq
    simp only [Option.some.injEq] at h
    subst h
    by_cases hst : state = 1 <;> simp [dictGet, KIND_TAGS, hst]
  · exact absurd h (by simp)

theorem parse_scroll_tag {payload : List Nat} {e : EventData}
    (h : parse_scroll_packet payload = some e) :
    dictGet e "type" (JVal.js "") ∈ KIND_TAGS := by
  unfold parse_scroll_packet at h
  split at h
  · simp only [Option.some.injEq] at h
    subst h
    simp [dictGet, KIND_TAGS]
  · exact absurd h (by simp)

theorem parse_control_switch_tag {payload : List Nat} {e : EventData}
    (h : parse_control_switch_packet payload = some e) :
    dictGet e "type" (JVal.js "") ∈ KIND_TAGS := by
  unfold parse_control_switch_packet at h
  split at h
  · simp only [Option.some.injEq] at h
    subst h
    simp [dictGet, KIND_TAGS]
  · exact absurd h (by simp)

theorem parse_heartbeat_tag {payload : List Nat} {e : EventData}
    (h : parse_heartbeat_packet payload = some e) :
    dictGet e "type" (JVal.js "") ∈ KIND_TAGS := by
  unfold parse_heartbeat_packet at h
  split at h
  · simp only [Option.some.injEq] at h
    subst h
    simp [dictGet, KIND_TAGS]
  · exact absurd h (by simp)

/-- Any accepted packet is a complete record of a known kind. -/
theorem parse_packet_some_tag {zd : List Nat → Option (List Nat)}
    {jl : List Nat → Option EventData} {p : List Nat} {e : EventData}
    (h : parse_packet zd jl p = some e) :
    dictGet e "type" (JVal.js "") ∈ KIND_TAGS := by
  simp only [parse_packet] at h
  split at h
  · exact absurd h (by simp)
  split at h
  · exact absurd h (by simp)
  split at h
  · exact absurd h (by simp)
  split at h
  · exact absurd h (by simp)
  · split at h
    · exact parse_mouse_movement_tag h
    split at h
    · exact parse_mouse_click_tag h
    split at h
    · exact parse_keyboard_tag h
    split at h
    · exact parse_scroll_tag h
    split at h
    · exact parse_control_switch_tag h
    split at h
    · exact parse_heartbeat_tag h
    split at h
    · rename_i hff
      exfalso
      have hle := Nat.and_le_right (n := p.getD 2 0) (m := 127)
      omega
    · exact absurd h (by simp)

/-- C10: `parse_packet` is total over arbitrary byte strings — every
input is either rejected (`None`, covering short input, bad magic, bad
checksum, failed decompression, unknown type code, wrong payload length,
and malformed JSON, all of which the source maps to `None` via explicit
checks or its `try`/`except`) or parsed to a complete record whose type
tag is one of the supported kinds; nothing partial escapes. -/
theorem claim_C10 (zd : List Nat → Option (List Nat)) (jl : List Nat → Option EventData)
    (p : List Nat) :
    parse_packet zd jl p = none ∨
      ∃ e, parse_packet zd jl p = some e ∧ dictGet e "type" (JVal.js "") ∈ KIND_TAGS := by
  rcases hp : parse_packet zd jl p with _ | e
  · exact Or.inl rfl
  · exact Or.inr ⟨e, rfl, parse_packet_some_tag hp⟩

/-! ### Session-layer claims -/

theorem disconnect_client_eq (st : CMState) (hlock : st.lockHeld = false) :
    disconnect_client st = some (disconnectedState st) := by
  unfold disconnect_client disconnectedState
  rw [if_neg (by rw [hlock]; exact Bool.false_ne_true)]

/-- What a successful handshake installs: the new socket Connected, the
lock released, the closed-socket ledger only grown, and any previously
installed socket closed. -/
theorem handle_ok_shape {st : CMState} {sock addr : Nat} {r : HandshakeResp} {st' : CMState}
    (hr : r.rtype = "handshake_response") (hlock : st.lockHeld = false)
    (h : handle_client_connection st sock addr (some r) = some st') :
    st'.connected = true ∧ st'.clientSocket = some sock ∧ st'.lockHeld = false ∧
      (∀ x ∈ st.closedSockets, x ∈ st'.closedSockets) ∧
      (∀ s0, st.clientSocket = some s0 → s0 ∈ st'.closedSockets) := by
  simp only [handle_client_connection] at h
  rw [if_pos hr] at h
  rcases hcs : st.clientSocket with _ | s0
  · rw [hcs] at h
    simp only [Option.isSome_none, Bool.false_eq_true, if_neg, reduceIte] at h
    rw [if_neg (by rw [hlock]; exact Bool.false_ne_true)] at h
    simp only [Option.some.injEq] at h
    subst h
    simp [hcs, hlock]
  · rw [hcs] at h
    simp only [Option.isSome_some, reduceIte] at h
    unfold disconnect_client at h
    rw [if_neg (by rw [hlock]; exact Bool.false_ne_true)] at h
    simp only [Option.some.injEq] at h
    rw [hcs] at h
    rw [if_neg (by rw [hlock]; exact Bool.false_ne_true)] at h
    simp only [Option.some.injEq] at h
    subst h
    simp [hcs, hlock]
    intro x hx
    exact Or.inr hx

/-- C3: confirmed.  After two sequential successful handshakes, exactly
the later peer's socket is the Connected session, the earlier peer's
socket has been closed, and — structurally, since the manager owns a
single client slot — no state ever has two Connected sessions. -/
theorem claim_C3 (st : CMState) (sock1 sock2 addr1 addr2 : Nat) (r1 r2 : HandshakeResp)
    {st1 st2 : CMState}
    (hlock : st.lockHeld = false)
    (hr1 : r1.rtype = "handshake_response") (hr2 : r2.rtype = "handshake_response")
    (h1 : handle_client_connection st sock1 addr1 (some r1) = some st1)
    (h2 : handle_client_connection st1 sock2 addr2 (some r2) = some st2) :
    st2.connected = true ∧ st2.clientSocket = some sock2 ∧ sock1 ∈ st2.closedSockets ∧
      connectedSockets st2 = [sock2] ∧
      ∀ s : CMState, (connectedSockets s).length ≤ 1 := by
  obtain ⟨hc1, hs1, hl1, _hm1, _hp1⟩ := handle_ok_shape hr1 hlock h1
  obtain ⟨hc2, hs2, _hl2, _hm2, hp2⟩ := handle_ok_shape hr2 hl1 h2
  refine ⟨hc2, hs2, hp2 sock1 hs1, ?_, ?_⟩
  · unfold connectedSockets
    rw [hc2, hs2]
    rfl
  · intro s
    unfold connectedSockets
    split
    · split <;> simp
    · simp

theorem claim_C3_witness :
    ∃ st1 st2 : CMState,
      handle_client_connection idleState 4 10 (some ⟨"handshake_response", some "a"⟩) = some st1 ∧
      handle_client_connection st1 5 11 (some ⟨"handshake_response", some "b"⟩) = some st2 ∧
      (st2.connected = true ∧ st2.clientSocket = some 5 ∧ (4 : Nat) ∈ st2.closedSockets ∧
        connectedSockets st2 = [5] ∧ ∀ s : CMState, (connectedSockets s).length ≤ 1) := by
  refine ⟨_, _, rfl, rfl, ?_⟩
  exact claim_C3 idleState 4 5 10 11 ⟨"handshake_response", some "a"⟩
    ⟨"handshake_response", some "b"⟩ rfl rfl rfl rfl rfl

/-- C9: the claim's failure path never completes.  With no Connected
session `send_packet` returns False at once with the state — socket
untouched; with a Connected session a successful write returns True; but
a FAILED write reaches `self.disconnect_client()` while `send_packet`
still holds the non-reentrant `self.lock`, so the thread deadlocks
(modelled as `none`) instead of disconnecting and returning False as the
claim (and the code's own structure) intends. -/
theorem claim_C9 :
    (∀ (st : CMState) (w : Bool), st.lockHeld = false →
      (st.connected = false ∨ st.clientSocket = none) →
      send_packet st w = some (false, st)) ∧
    (∀ st : CMState, st.lockHeld = false → st.connected = true →
      st.clientSocket.isSome = true → send_packet st true = some (true, st)) ∧
    (∀ st : CMState, st.lockHeld = false → st.connected = true →
      st.clientSocket.isSome = true → send_packet st false = none) := by
  refine ⟨?_, ?_, ?_⟩
  · intro st w hlock hidle
    obtain ⟨lk, cn, cs, ca, dn, cl⟩ := st
    simp only at hlock
    subst hlock
    rcases hidle with hcn | hcs
    · simp only at hcn
      subst hcn
      simp [send_packet]
    · simp only at hcs
      subst hcs
      simp [send_packet]
  · intro st hlock hcn hcs
    obtain ⟨lk, cn, cs, ca, dn, cl⟩ := st
    simp only at hlock hcn hcs
    subst hlock
    subst hcn
    rcases cs with _ | s
    · cases hcs
    · simp [send_packet]
  · intro st hlock hcn hcs
    obtain ⟨lk, cn, cs, ca, dn, cl⟩ := st
    simp only at hlock hcn hcs
    subst hlock
    subst hcn
    rcases cs with _ | s
    · cases hcs
    · simp [send_packet, disconnect_client]

theorem claim_C9_witness :
    send_packet idleState true = some (false, idleState) ∧
    send_packet connState true = some (true, connState) ∧
    send_packet connState false = none :=
  ⟨claim_C9.1 idleState true rfl (Or.inl rfl),
   claim_C9.2.1 connState rfl rfl rfl,
   claim_C9.2.2 connState rfl rfl rfl⟩

/-- C8 counterexample: at wall-clock time 1 second (= 1000 unix-ms) the
heartbeat loop sends `{"type": "heartbeat", "timestamp": 1}` — the
`time.time()` value in unix seconds — not the spec's
`{"type":"heartbeat","timestamp":<unix-ms>}` message, which at the same
instant carries 1000. -/
theorem claim_C8_counterexample :
    heartbeat_tick connState 1 true =
      some (connState, some (jdumps (heartbeat_message 1) ++ [10])) ∧
    dictGet (heartbeat_message 1) "timestamp" (JVal.jn 0) = JVal.jn 1 ∧
    dictGet (heartbeat_message_spec (1 * 1000)) "timestamp" (JVal.jn 0) = JVal.jn 1000 ∧
    heartbeat_message 1 ≠ heartbeat_message_spec (1 * 1000) := by
  refine ⟨by decide, by decide, by decide, by decide⟩

/-- C8 amended: every `HEARTBEAT_INTERVAL = 5` seconds while Connected,
the loop sends the newline-terminated JSON message
`{"type": "heartbeat", "timestamp": t}` with `t` the `time.time()` value
in unix seconds (the spec's wire table says unix milliseconds — the only
part of the claim the code contradicts); a failed `send_json` disconnects
the session and closes its socket; when not Connected nothing is sent. -/
theorem claim_C8_amended :
    HEARTBEAT_INTERVAL = 5 ∧
    (∀ (st : CMState) (now : Int), st.connected = true →
      heartbeat_tick st now true = some (st, some (jdumps (heartbeat_message now) ++ [10]))) ∧
    (∀ (st : CMState) (now : Int), st.lockHeld = false → st.connected = true →
      ∃ st', heartbeat_tick st now false =
          some (st', some (jdumps (heartbeat_message now) ++ [10])) ∧
        st'.connected = false ∧ st'.clientSocket = none ∧
        (∀ s, st.clientSocket = some s → s ∈ st'.closedSockets)) ∧
    (∀ (st : CMState) (now : Int) (b : Bool), st.connected = false →
      heartbeat_tick st now b = some (st, none)) := by
  refine ⟨rfl, ?_, ?_, ?_⟩
  · intro st now hcn
    simp [heartbeat_tick, hcn]
  · intro st now hlock hcn
    refine ⟨disconnectedState st, ?_, rfl, rfl, ?_⟩
    · unfold heartbeat_tick
      rw [if_pos (by rw [hcn]), if_neg Bool.false_ne_true, disconnect_client_eq st hlock]
    · intro s hs
      simp [disconnectedState, hs]
  · intro st now b hcn
    simp [heartbeat_tick, hcn]

theorem claim_C8_amended_witness :
    heartbeat_tick connState 5 true =
      some (connState, some (jdumps (heartbeat_message 5) ++ [10])) ∧
    heartbeat_tick idleState 5 true = some (idleState, none) :=
  ⟨claim_C8_amended.2.1 connState 5 rfl, claim_C8_amended.2.2.2 idleState 5 true rfl⟩

/-! ### Compression gating (C5) and sequence numbers (C7) -/

/-- C5 counterexample: with compression enabled, encoding a small
heartbeat event yields a frame whose type byte is 0xFF — bit 7 set —
although the raw payload is only 44 bytes (≤ 64) and unmodified: the
JSON-fallback type code 0xFF already carries the "compression" bit, so
the claimed iff is false for the only encoder path the program uses. -/
theorem claim_C5_counterexample :
    ((create_packet zlibNone true 0 0 heartbeatEv).map
      (fun p => (p.1.getD 2 0, (p.1.getD 2 0).testBit 7))) = some (0xFF, true) ∧
    (jdumps heartbeatEv).length + 4 = 44 ∧ ((44 : Nat) ≤ 64) := by
  refine ⟨by decide, by decide, by decide⟩

/-- C5 amended: for `build_packet` calls whose base type byte has bit 7
clear (every binary type code), the flag bit of the emitted type byte is
set iff compression is enabled, the raw payload exceeds 64 bytes, and the
compressor returned a strictly smaller result — and when the flag is
clear, the frame carries the raw payload unmodified.  For the JSON
fallback's type code 0xFF (the path `create_packet` always takes) bit 7
is set on every frame, compressed or not. -/
theorem claim_C5_amended :
    (∀ (zc : List Nat → Option (List Nat)) (en : Bool) (seq t : Nat)
      (payload f : List Nat) (s' : Nat),
      t < 0x80 → build_packet zc en seq t payload = some (f, s') →
      (((f.getD 2 0).testBit 7 = true) ↔
        (en = true ∧ payload.length > 64 ∧
          ∃ c, zc payload = some c ∧ c.length < payload.length)) ∧
      (((f.getD 2 0).testBit 7 = false) → f = mkFrame t payload)) ∧
    (∀ (zc : List Nat → Option (List Nat)) (en : Bool) (seq : Nat)
      (payload f : List Nat) (s' : Nat),
      build_packet zc en seq 0xFF payload = some (f, s') →
      f.getD 2 0 = 0xFF ∧ (f.getD 2 0).testBit 7 = true) := by
  constructor
  · intro zc en seq t payload f s' ht h
    rcases compressPayload_cases zc en t payload with hcp | ⟨c, hzc, hlen, hen, hbig, hcp⟩
    · rw [build_packet_eq zc en seq t payload (by rw [hcp]; show t < 256; omega)] at h
      rw [hcp] at h
      simp only [Option.some.injEq, Prod.mk.injEq] at h
      have hf : f = mkFrame t payload := h.1.symm
      have hbyte : f.getD 2 0 = t := by
        rw [hf]
        rfl
      have hbit : (f.getD 2 0).testBit 7 = false := by
        rw [hbyte]
        exact Nat.testBit_eq_false_of_lt (by omega)
      constructor
      · rw [hbit]
        constructor
        · intro hfalse
          cases hfalse
        · rintro ⟨hen, hbig, c, hzc, hc⟩
          have := compressPayload_of_gate zc en t payload c hen hbig hzc hc
          rw [hcp] at this
          have ht2 : t = t ||| 128 := congrArg Prod.fst this
          have hb1 : Nat.testBit t 7 = false := Nat.testBit_eq_false_of_lt (by omega)
          have hb2 : Nat.testBit (t ||| 128) 7 = true := by
            rw [Nat.testBit_or, show Nat.testBit 128 7 = true from by decide, Bool.or_true]
          rw [← ht2, hb1] at hb2
          cases hb2
      · intro
        exact hf
    · rw [build_packet_eq zc en seq t payload (by rw [hcp]; exact (by
        have := Nat.or_lt_two_pow (n := 8) (show t < 2 ^ 8 by omega)
          (show (128 : Nat) < 2 ^ 8 by norm_num)
        omega))] at h
      rw [hcp] at h
      simp only [Option.some.injEq, Prod.mk.injEq] at h
      have hbyte : f.getD 2 0 = t ||| 128 := by
        rw [← h.1]
        rfl
      have hbit : (f.getD 2 0).testBit 7 = true := by
        rw [hbyte, Nat.testBit_or, show Nat.testBit 128 7 = true from by decide, Bool.or_true]
      constructor
      · rw [hbit]
        exact ⟨fun _ => ⟨hen, hbig, c, hzc, hlen⟩, fun _ => rfl⟩
      · intro hfalse
        rw [hbit] at hfalse
        cases hfalse
  · intro zc en seq payload f s' h
    obtain ⟨_, hf | ⟨c, _, _, _, _, hf⟩⟩ := build_packet_shape h
    · rw [hf]
      exact ⟨rfl, (by decide : Nat.testBit 255 7 = true)⟩
    · rw [hf]
      exact ⟨rfl, (by decide : Nat.testBit 255 7 = true)⟩

theorem claim_C5_amended_witness :
    (((mkFrame 8 []).getD 2 0).testBit 7 = true ↔
      (false = true ∧ ([] : List Nat).length > 64 ∧
        ∃ c, zlibNone [] = some c ∧ c.length < ([] : List Nat).length)) ∧
    (((mkFrame 8 []).getD 2 0).testBit 7 = false → mkFrame 8 [] = mkFrame 8 ([] : List Nat)) :=
  claim_C5_amended.1 zlibNone false 0 8 [] (mkFrame 8 []) ((0 + 1) % 65536) (by decide)
    (build_packet_uncompressed zlibNone 0 8 [] (by decide))

theorem leBytes_length (k n : Nat) : (leBytes k n).length = k := by
  simp [leBytes]

/-- C7: confirmed.  Consecutive successful `create_packet` calls on one
codec state use the counter values `n` and `(n + 1) % 65536` — each call
increments the counter by exactly one, wrapping at 65536 — and (shown for
the compression-disabled frame, where the payload is on the wire
unmodified) the emitted frame embeds the counter value in force as its
first payload field. -/
theorem claim_C7 (zc : List Nat → Option (List Nat)) (en : Bool) (now : Int)
    (seq : Nat) (ev1 ev2 : EventData) {f1 f2 : List Nat} {s1 s2 : Nat}
    (h1 : create_packet zc en now seq ev1 = some (f1, s1))
    (h2 : create_packet zc en now s1 ev2 = some (f2, s2)) :
    s1 = (seq + 1) % 65536 ∧ s2 = (seq + 2) % 65536 ∧
      (en = false →
        (f1.drop 3).take 2 = leBytes 2 seq ∧ (f2.drop 3).take 2 = leBytes 2 s1) := by
  obtain ⟨hseq1, _, hs1, hb1⟩ := create_packet_some_shape h1
  obtain ⟨hseq2, _, hs2, hb2⟩ := create_packet_some_shape h2
  have hwrap : s2 = (seq + 2) % 65536 := by
    rw [hs2, hs1]
    omega
  refine ⟨hs1, hwrap, ?_⟩
  rintro rfl
  have hshape : ∀ (s : Nat) (ev : EventData) (f : List Nat) (s' : Nat),
      build_packet zc false s 0xFF (json_payload s ev) = some (f, s') →
      (f.drop 3).take 2 = leBytes 2 s := by
    intro s ev f s' hb
    rw [build_packet_uncompressed zc s 0xFF (json_payload s ev) (by norm_num)] at hb
    simp only [Option.some.injEq, Prod.mk.injEq] at hb
    rw [← hb.1]
    show ((json_payload s ev ++
      leBytes 2 (calculate_checksum (187 :: 170 :: 255 :: json_payload s ev))).take 2) =
      leBytes 2 s
    unfold json_payload
    rw [List.append_assoc, List.append_assoc]
    exact List.take_left' (leBytes_length 2 s)
  exact ⟨hshape seq ev1 f1 s1 hb1, hshape s1 ev2 f2 s2 hb2⟩

theorem claim_C7_witness :
    ∃ f1 f2 : List Nat,
      create_packet zlibNone false 0 65535 heartbeatEv = some (f1, 0) ∧
      create_packet zlibNone false 0 0 heartbeatEv = some (f2, 1) ∧
      0 = (65535 + 1) % 65536 ∧ 1 = (65535 + 2) % 65536 ∧
      (f1.drop 3).take 2 = leBytes 2 65535 ∧ (f2.drop 3).take 2 = leBytes 2 0 := by
  have h1 : create_packet zlibNone false 0 65535 heartbeatEv =
      some (mkFrame 0xFF (json_payload 65535 heartbeatEv), 0) := by
    rw [create_packet_eq_json zlibNone false 0 65535 heartbeatEv (u := 1000) (by decide),
      create_json_packet_eq zlibNone false (by decide) (by decide),
      build_packet_uncompressed zlibNone 65535 0xFF _ (by norm_num)]
  have h2 : create_packet zlibNone false 0 0 heartbeatEv =
      some (mkFrame 0xFF (json_payload 0 heartbeatEv), 1) := by
    rw [create_packet_eq_json zlibNone false 0 0 heartbeatEv (u := 1000) (by decide),
      create_json_packet_eq zlibNone false (by decide) (by decide),
      build_packet_uncompressed zlibNone 0 0xFF _ (by norm_num)]
  have hmain := claim_C7 zlibNone false 0 65535 heartbeatEv heartbeatEv h1
    (by rw [show (0 : Nat) = (65535 + 1) % 65536 from by norm_num] at h2 ⊢; exact h2)
  refine ⟨_, _, h1, h2, by norm_num, by norm_num, ?_, ?_⟩
  · exact (hmain.2.2 rfl).1
  · have := (hmain.2.2 rfl).2
    rwa [show (65535 + 1) % 65536 = 0 from by norm_num] at this

/-! ### Batching (C6) -/

theorem create_packet_len {zc : List Nat → Option (List Nat)} {now : Int} {seq : Nat}
    {ev : EventData} {pk : List Nat × Nat}
    (h : create_packet zc false now seq ev = some pk) :
    pk.1.length = evSize ev ∧ pk.2 = (seq + 1) % 65536 := by
  obtain ⟨pk1, pk2⟩ := pk
  obtain ⟨_, _, hs, hb⟩ := create_packet_some_shape h
  rw [build_packet_uncompressed zc seq 0xFF (json_payload seq ev) (by norm_num)] at hb
  simp only [Option.some.injEq, Prod.mk.injEq] at hb
  constructor
  · rw [← hb.1]
    simp [mkFrame, json_payload, leBytes_length, evSize]
    omega
  · exact hs

theorem create_batch_packet_eq (events : List EventData) (seq : Nat)
    (hs : seq < 65536) (hl : (jdumpsList events).length < 65536) :
    create_batch_packet events seq = some (batchFrame events seq, (seq + 1) % 65536) := by
  unfold create_batch_packet
  rw [structPack_HH hs hl]
  rw [show structPack [PackF.fH, PackF.fB]
    [PackV.vn (Int.ofNat HEADER_MAGIC), PackV.vn 0xFE] = some [0xBB, 0xAA, 0xFE] from by decide]
  simp [batchFrame, mkFrame]

theorem create_batch_packet_bounds {events : List EventData} {seq : Nat}
    {out : List Nat × Nat} (h : create_batch_packet events seq = some out) :
    seq < 65536 ∧ (jdumpsList events).length < 65536 := by
  by_cases hs : seq < 65536
  · by_cases hl : (jdumpsList events).length < 65536
    · exact ⟨hs, hl⟩
    · exfalso
      unfold create_batch_packet at h
      rw [structPack_HH_none_right hs hl] at h
      simp at h
  · exfalso
    unfold create_batch_packet at h
    rw [structPack_HH_none hs] at h
    simp at h

theorem batchLoop_nil_nil (zc : List Nat → Option (List Nat)) (en : Bool) (now : Int)
    (seq : Nat) (packets : List (List Nat)) (curSize max_size : Nat) :
    batchLoop zc en now [] seq packets [] curSize max_size = some (packets.reverse, seq) := rfl

theorem batchLoop_nil_cons (zc : List Nat → Option (List Nat)) (en : Bool) (now : Int)
    (seq : Nat) (packets : List (List Nat)) (c0 : EventData) (crest : List EventData)
    (curSize max_size : Nat) :
    batchLoop zc en now [] seq packets (c0 :: crest) curSize max_size =
      (create_batch_packet (c0 :: crest) seq).bind
        (fun bp => some ((bp.1 :: packets).reverse, bp.2)) := rfl

theorem batchLoop_cons (zc : List Nat → Option (List Nat)) (en : Bool) (now : Int)
    (ev : EventData) (rest : List EventData) (seq : Nat) (packets : List (List Nat))
    (cur : List EventData) (curSize max_size : Nat) :
    batchLoop zc en now (ev :: rest) seq packets cur curSize max_size =
      (create_packet zc en now seq ev).bind (fun pk =>
        if curSize + pk.1.length > max_size ∧ cur ≠ [] then
          (create_batch_packet cur pk.2).bind (fun bp =>
            batchLoop zc en now rest bp.2 (bp.1 :: packets) [ev] pk.1.length max_size)
        else
          batchLoop zc en now rest pk.2 packets (cur ++ [ev])
            (curSize + pk.1.length) max_size) := rfl

theorem forall₂_append {α β : Type} {R : α → β → Prop} :
    ∀ {l1 : List α} {l2 : List β} {u1 : List α} {u2 : List β},
      List.Forall₂ R l1 l2 → List.Forall₂ R u1 u2 →
      List.Forall₂ R (l1 ++ u1) (l2 ++ u2) := by
  intro l1 l2 u1 u2 h1 h2
  induction h1 with
  | nil => simpa using h2
  | cons hr _ ih => exact List.Forall₂.cons hr ih

/-- Loop invariant of `batch_events`, for any compressor and compression
setting: the produced frames are the already flushed ones plus one batch
frame per remaining chunk; the chunks partition (carry-over batch ++
remaining events) in order, none is empty, and every chunk that grew past
its first event kept the sum of its events' individually encoded frame
lengths within `max_size`. -/
theorem batchLoop_spec (zc : List Nat → Option (List Nat)) (en : Bool) (now : Int) :
    ∀ (evs : List EventData) (seq : Nat) (packets : List (List Nat))
      (cur : List EventData) (curSize max_size : Nat)
      (frames : List (List Nat)) (seqOut : Nat),
      batchLoop zc en now evs seq packets cur curSize max_size = some (frames, seqOut) →
      (∃ sizes : List Nat, List.Forall₂ (encSize zc en now) cur sizes ∧
        curSize = sizes.sum) →
      (2 ≤ cur.length → curSize ≤ max_size) →
      ∃ (chunks : List (List EventData)) (seqs : List Nat),
        frames = packets.reverse ++ List.zipWith batchFrame chunks seqs ∧
        chunks.length = seqs.length ∧
        chunks.flatten = cur ++ evs ∧
        (∀ c ∈ chunks, c ≠ []) ∧
        (∀ c ∈ chunks, ∃ sizes : List Nat,
          List.Forall₂ (encSize zc en now) c sizes ∧
          (2 ≤ c.length → sizes.sum ≤ max_size)) := by
  intro evs
  induction evs with
  | nil =>
      intro seq packets cur curSize max_size frames seqOut h hsz hinv
      cases cur with
      | nil =>
          rw [batchLoop_nil_nil] at h
          simp only [Option.some.injEq, Prod.mk.injEq] at h
          refine ⟨[], [], ?_, rfl, by simp, by simp, by simp⟩
          simp [← h.1]
      | cons c0 crest =>
          rw [batchLoop_nil_cons] at h
          rcases hb : create_batch_packet (c0 :: crest) seq with _ | bp
          · rw [hb] at h
            cases h
          · rw [hb] at h
            simp only [Option.some_bind, Option.some.injEq, Prod.mk.injEq] at h
            obtain ⟨hbd1, hbd2⟩ := create_batch_packet_bounds hb
            rw [create_batch_packet_eq (c0 :: crest) seq hbd1 hbd2] at hb
            simp only [Option.some.injEq] at hb
            refine ⟨[c0 :: crest], [seq], ?_, rfl, by simp, by simp, ?_⟩
            · rw [← h.1, ← hb]
              simp
            · intro c hc
              simp only [List.mem_singleton] at hc
              subst hc
              obtain ⟨sizes, hfa, hsum⟩ := hsz
              exact ⟨sizes, hfa, fun h2 => hsum ▸ hinv h2⟩
  | cons ev rest ih =>
      intro seq packets cur curSize max_size frames seqOut h hsz hinv
      rw [batchLoop_cons] at h
      rcases hc : create_packet zc en now seq ev with _ | pk
      · rw [hc] at h
        cases h
      · rw [hc] at h
        simp only [Option.some_bind] at h
        by_cases hcond : curSize + pk.1.length > max_size ∧ cur ≠ []
        · rw [if_pos hcond] at h
          rcases hbp : create_batch_packet cur pk.2 with _ | bp
          · rw [hbp] at h
            cases h
          · rw [hbp] at h
            simp only [Option.some_bind] at h
            obtain ⟨hbd1, hbd2⟩ := create_batch_packet_bounds hbp
            rw [create_batch_packet_eq cur pk.2 hbd1 hbd2] at hbp
            simp only [Option.some.injEq] at hbp
            obtain ⟨chunks, seqs, hfr, hlen2, hjoin, hne, hbound⟩ :=
              ih bp.2 (bp.1 :: packets) [ev] pk.1.length max_size frames seqOut h
                ⟨[pk.1.length],
                  List.Forall₂.cons ⟨seq, pk.1, pk.2, hc, rfl⟩ List.Forall₂.nil,
                  by simp⟩
                (by simp)
            refine ⟨cur :: chunks, pk.2 :: seqs, ?_, by simp [hlen2], ?_, ?_, ?_⟩
            · rw [hfr, ← hbp]
              simp
            · simp [hjoin]
            · intro c hcc
              rcases List.mem_cons.mp hcc with hcc | hcc
              · subst hcc
                exact hcond.2
              · exact hne c hcc
            · intro c hcc
              rcases List.mem_cons.mp hcc with hcc | hcc
              · subst hcc
                obtain ⟨sizes, hfa, hsum⟩ := hsz
                exact ⟨sizes, hfa, fun h2 => hsum ▸ hinv h2⟩
              · exact hbound c hcc
        · rw [if_neg hcond] at h
          have hcur : 2 ≤ (cur ++ [ev]).length → curSize + pk.1.length ≤ max_size := by
            intro h2
            by_cases hnil : cur = []
            · subst hnil
              simp at h2
            · push_neg at hcond
              exact Nat.le_of_not_lt (fun hlt => absurd (hcond (by omega)) (by simp [hnil]))
          obtain ⟨sizes0, hfa0, hsum0⟩ := hsz
          obtain ⟨chunks, seqs, hfr, hlen2, hjoin, hne, hbound⟩ :=
            ih pk.2 packets (cur ++ [ev]) (curSize + pk.1.length) max_size frames seqOut h
              ⟨sizes0 ++ [pk.1.length],
                forall₂_append hfa0
                  (List.Forall₂.cons ⟨seq, pk.1, pk.2, hc, rfl⟩ List.Forall₂.nil),
                by simp [hsum0]⟩
              hcur
          refine ⟨chunks, seqs, hfr, hlen2, ?_, hne, hbound⟩
          rw [hjoin]
          simp

/-- C6 counterexample: under the program's configuration (compression
enabled) and with `max_size = 1`, `batch_events` still emits a 51-byte
batch frame for a single heartbeat event — the loop bounds the
accumulated sizes of the events' individual encodings, never the size of
the batch frame it actually builds, so the produced frame's serialized
size exceeds `maxSize`. -/
theorem claim_C6_counterexample :
    batch_events zlibNone true 0 [heartbeatEv] 0 1 =
      some ([batchFrame [heartbeatEv] 1], 2) ∧
    1 < (batchFrame [heartbeatEv] 1).length := by
  constructor
  · rfl
  · decide

/-- C6 (amended): for every compressor and compression setting, whenever
`batch_events` succeeds the produced frames are exactly one type-0xFE
batch frame per chunk of an in-order partition of the input events — each
frame's payload being a sequence-number field, a 2-byte JSON length and
the JSON array of the chunk's original event records — no chunk is empty
(no event is split across batches), and every chunk that grew beyond its
first event keeps the summed lengths of its events' individually encoded
frames within `max_size`; the bound is on those individual encodings, not
on the emitted batch frame itself. -/
theorem claim_C6_amended (zc : List Nat → Option (List Nat)) (en : Bool) (now : Int)
    (events : List EventData) (seq max_size : Nat)
    (frames : List (List Nat)) (seqOut : Nat)
    (h : batch_events zc en now events seq max_size = some (frames, seqOut)) :
    ∃ (chunks : List (List EventData)) (seqs : List Nat),
      frames = List.zipWith batchFrame chunks seqs ∧
      chunks.length = seqs.length ∧
      chunks.flatten = events ∧
      (∀ c ∈ chunks, c ≠ []) ∧
      (∀ c ∈ chunks, ∃ sizes : List Nat,
        List.Forall₂ (encSize zc en now) c sizes ∧
        (2 ≤ c.length → sizes.sum ≤ max_size)) := by
  obtain ⟨chunks, seqs, hfr, hlen, hjoin, hne, hb⟩ :=
    batchLoop_spec zc en now events seq [] [] 0 max_size frames seqOut h
      ⟨[], List.Forall₂.nil, rfl⟩ (by intro h2; exact Nat.zero_le _)
  exact ⟨chunks, seqs, by simpa using hfr, hlen, by simpa using hjoin, hne, hb⟩

theorem claim_C6_amended_witness :
    ∃ (chunks : List (List EventData)) (seqs : List Nat),
      [batchFrame [heartbeatEv] 1] = List.zipWith batchFrame chunks seqs ∧
      chunks.length = seqs.length ∧
      chunks.flatten = [heartbeatEv] ∧
      (∀ c ∈ chunks, c ≠ []) ∧
      (∀ c ∈ chunks, ∃ sizes : List Nat,
        List.Forall₂ (encSize zlibNone true 0) c sizes ∧
        (2 ≤ c.length → sizes.sum ≤ 100)) :=
  claim_C6_amended zlibNone true 0 [heartbeatEv] 0 100 [batchFrame [heartbeatEv] 1] 2 rfl

/-! ### The checksum coincides with the spec's bit-at-a-time CRC16 (C4) -/

theorem two_le_two_pow_succ (i : Nat) : (2:Nat) ≤ 2 ^ (i + 1) := by
  calc (2:Nat) = 2 ^ 1 := rfl
  _ ≤ 2 ^ (i + 1) := Nat.pow_le_pow_right (by omega) (by omega)

theorem testBit_two_mul_succ (c i : Nat) : (2 * c).testBit (i + 1) = c.testBit i := by
  rw [Nat.mul_comm, Nat.testBit_succ]
  simp [Nat.mul_div_cancel]

theorem xor_small_div_two (a e : Nat) (he : e < 2) : (a ^^^ e) / 2 = a / 2 := by
  apply Nat.eq_of_testBit_eq
  intro i
  rw [Nat.testBit_div_two, Nat.testBit_div_two, Nat.testBit_xor,
    Nat.testBit_eq_false_of_lt (lt_of_lt_of_le he (two_le_two_pow_succ i))]
  simp

theorem xor_double_div_two (a c : Nat) : (a ^^^ 2 * c) / 2 = a / 2 ^^^ c := by
  apply Nat.eq_of_testBit_eq
  intro i
  rw [Nat.testBit_div_two, Nat.testBit_xor, Nat.testBit_xor, Nat.testBit_div_two,
    testBit_two_mul_succ]

theorem xor_double_mod_two (a c : Nat) : (a ^^^ 2 * c) % 2 = a % 2 := by
  rw [Nat.xor_mod_two_eq]
  omega

theorem xor_split_two (b : Nat) : b % 2 ^^^ 2 * (b / 2) = b := by
  apply Nat.eq_of_testBit_eq
  intro i
  cases i with
  | zero =>
      rw [Nat.testBit_xor]
      simp [Nat.testBit_zero]
  | succ i =>
      rw [Nat.testBit_xor, testBit_two_mul_succ,
        Nat.testBit_eq_false_of_lt
          (lt_of_lt_of_le (Nat.mod_lt b (by omega)) (two_le_two_pow_succ i)),
        ← Nat.testBit_div_two]
      simp

/-- The spec's bit step on the low bit of `b` is the source's register
round applied to the register with that bit xored in. -/
theorem crcBitStep_eq_round (crc b : Nat) :
    crcBitStep crc (decide (b % 2 = 1)) = crcRound (crc ^^^ b % 2) := by
  unfold crcBitStep crcRound
  rw [Nat.xor_mod_two_eq, xor_small_div_two crc (b % 2) (Nat.mod_lt b (by omega))]
  rcases Nat.mod_two_eq_zero_or_one b with hb | hb <;> rw [hb] <;>
    rcases Nat.mod_two_eq_zero_or_one crc with hc | hc <;> simp [hc] <;>
    first
      | rw [if_pos (by omega)]
      | rw [if_neg (by omega)]

/-- Splitting a register round on `crc ^^^ b` into the round on the low
bit of `b` and the deferred higher bits. -/
theorem crcRound_split_bit (crc b : Nat) :
    crcRound (crc ^^^ b) = crcRound (crc ^^^ b % 2) ^^^ b / 2 := by
  have hb : crc ^^^ b = (crc ^^^ b % 2) ^^^ 2 * (b / 2) := by
    rw [Nat.xor_assoc, xor_split_two]
  rw [hb]
  unfold crcRound
  rw [xor_double_mod_two, xor_double_div_two]
  rcases Nat.mod_two_eq_zero_or_one (crc ^^^ b % 2) with hc | hc <;> simp [hc]
  rw [Nat.xor_assoc, Nat.xor_assoc, Nat.xor_comm (b / 2) 40961]

theorem crcIter_eq_bits : ∀ (j : Nat) (crc b : Nat), b < 2 ^ j →
    crcRound^[j] (crc ^^^ b) = (lowBits j b).foldl crcBitStep crc := by
  intro j
  induction j with
  | zero =>
      intro crc b hb
      interval_cases b
      simp [lowBits]
  | succ j ih =>
      intro crc b hb
      rw [Function.iterate_succ_apply, lowBits, List.foldl_cons, crcBitStep_eq_round,
        crcRound_split_bit, ih (crcRound (crc ^^^ b % 2)) (b / 2) (by omega)]

/-- Processing one byte LSB-first bit by bit is `calculate_checksum`'s
xor-then-eight-rounds treatment of the byte. -/
theorem crcByte_eq_bits (crc b : Nat) (hb : b < 256) :
    crcByte crc b = (lowBits 8 b).foldl crcBitStep crc :=
  crcIter_eq_bits 8 crc b hb

/-- `calculate_checksum` computes the spec's CRC16 on any byte string. -/
theorem checksum_eq_spec : ∀ (data : List Nat), (∀ b ∈ data, b < 256) →
    calculate_checksum data = crc16_spec data := by
  have key : ∀ (data : List Nat) (s : Nat), (∀ b ∈ data, b < 256) →
      data.foldl crcByte s =
        data.foldl (fun crc b => (lowBits 8 b).foldl crcBitStep crc) s := by
    intro data
    induction data with
    | nil => intro s _; rfl
    | cons b rest ih =>
        intro s hd
        rw [List.foldl_cons, List.foldl_cons, crcByte_eq_bits s b (hd b (by simp))]
        exact ih _ (fun x hx => hd x (by simp [hx]))
  intro data hd
  exact key data 0xFFFF hd

/-! ### Single-bit corruption is always rejected (C4) -/

theorem frameBody_length (t : Nat) (payload : List Nat) :
    (frameBody t payload).length = payload.length + 3 := by
  simp [frameBody]

theorem frameBody_bytes {t : Nat} {payload : List Nat} (ht : t < 256)
    (hp : ∀ b ∈ payload, b < 256) : ∀ b ∈ frameBody t payload, b < 256 := by
  intro b hb
  simp only [frameBody, List.mem_cons] at hb
  rcases hb with hb | hb | hb | hb
  · omega
  · omega
  · omega
  · exact hp b hb

theorem mkFrame_body (t : Nat) (payload : List Nat) :
    mkFrame t payload =
      frameBody t payload ++ leBytes 2 (calculate_checksum (frameBody t payload)) := rfl

theorem mkFrame_length (t : Nat) (payload : List Nat) :
    (mkFrame t payload).length = payload.length + 5 := by
  rw [mkFrame_body]
  simp [frameBody_length, leBytes_length]

theorem flipBit_length (l : List Nat) (i k : Nat) :
    (flipBit l i k).length = l.length := by
  simp [flipBit]

theorem xor_flip_lt_256 {x : Nat} (hx : x < 256) {k : Nat} (hk : k < 8) :
    x ^^^ 1 <<< k < 256 := by
  rw [Nat.one_shiftLeft]
  have h1 : (2:Nat) ^ k < 2 ^ 8 := Nat.pow_lt_pow_right (by omega) hk
  have hx8 : x < 2 ^ 8 := by omega
  have h2 := Nat.xor_lt_two_pow hx8 h1
  omega

theorem parse_packet_magic_bad (zd : List Nat → Option (List Nat))
    (jl : List Nat → Option EventData) {f : List Nat}
    (h5 : ¬ f.length < 5) (hm : leVal (f.take 2) ≠ HEADER_MAGIC) :
    parse_packet zd jl f = none := by
  unfold parse_packet
  rw [if_neg h5, if_pos hm]

theorem parse_packet_checksum_bad (zd : List Nat → Option (List Nat))
    (jl : List Nat → Option EventData) {f : List Nat}
    (h5 : ¬ f.length < 5) (hm : leVal (f.take 2) = HEADER_MAGIC)
    (hv : verify_checksum f = false) :
    parse_packet zd jl f = none := by
  unfold parse_packet
  rw [if_neg h5, if_neg (by simp [hm]), if_pos hv]

theorem verify_checksum_append {body ck : List Nat} (hck : ck.length = 2) :
    verify_checksum (body ++ ck) = (leVal ck == calculate_checksum body) := by
  unfold verify_checksum
  have hl : (body ++ ck).length = body.length + 2 := by simp [hck]
  rw [if_neg (by omega), hl]
  have h2 : body.length + 2 - 2 = body.length := by omega
  rw [h2, List.drop_left' rfl, List.take_left' rfl]

/-- Any single-bit flip anywhere in a well-formed frame is rejected by
`parse_packet`: in the magic bytes the header check fails, in the body the
recomputed CRC departs from the stored checksum, and in the trailing
checksum field the stored value departs from the recomputed CRC. -/
theorem parse_flip_none (zd : List Nat → Option (List Nat))
    (jl : List Nat → Option EventData) (t : Nat) (payload : List Nat)
    (ht : t < 256) (hp : ∀ b ∈ payload, b < 256) (i k : Nat)
    (hi : i < (mkFrame t payload).length) (hk : k < 8) :
    parse_packet zd jl (flipBit (mkFrame t payload) i k) = none := by
  have hbb := frameBody_bytes ht hp
  have hclt : calculate_checksum (frameBody t payload) < 65536 := calculate_checksum_lt hbb
  have hbl := frameBody_length t payload
  have h5 : ¬ (flipBit (mkFrame t payload) i k).length < 5 := by
    rw [flipBit_length, mkFrame_length]
    omega
  rw [mkFrame_length] at hi
  by_cases hcb : i < (frameBody t payload).length
  · have hset : flipBit (mkFrame t payload) i k =
        (frameBody t payload).set i ((frameBody t payload).getD i 0 ^^^ 1 <<< k) ++
          leBytes 2 (calculate_checksum (frameBody t payload)) := by
      rw [mkFrame_body]
      unfold flipBit
      rw [List.getD_append _ _ _ _ hcb, List.set_append_left _ _ hcb]
    by_cases h2 : i < 2
    · apply parse_packet_magic_bad zd jl h5
      rw [hset]
      interval_cases i
      · have htake : ((frameBody t payload).set 0
            ((frameBody t payload).getD 0 0 ^^^ 1 <<< k) ++
            leBytes 2 (calculate_checksum (frameBody t payload))).take 2 =
            [187 ^^^ 1 <<< k, 170] := rfl
        rw [htake, leVal_pair]
        have hxne : 187 ^^^ 1 <<< k ≠ 187 := by
          rw [Nat.one_shiftLeft]
          exact xor_pow_ne k
        intro hcon
        rw [HEADER_MAGIC] at hcon
        omega
      · have htake : ((frameBody t payload).set 1
            ((frameBody t payload).getD 1 0 ^^^ 1 <<< k) ++
            leBytes 2 (calculate_checksum (frameBody t payload))).take 2 =
            [187, 170 ^^^ 1 <<< k] := rfl
        rw [htake, leVal_pair]
        have hxne : 170 ^^^ 1 <<< k ≠ 170 := by
          rw [Nat.one_shiftLeft]
          exact xor_pow_ne k
        intro hcon
        rw [HEADER_MAGIC] at hcon
        omega
    · obtain ⟨j, rfl⟩ : ∃ j, i = j + 2 := ⟨i - 2, by omega⟩
      apply parse_packet_checksum_bad zd jl h5
      · rw [hset]
        have htake : ((frameBody t payload).set (j + 2)
            ((frameBody t payload).getD (j + 2) 0 ^^^ 1 <<< k) ++
            leBytes 2 (calculate_checksum (frameBody t payload))).take 2 =
            [187, 170] := rfl
        rw [htake, leVal_pair, HEADER_MAGIC]
      · rw [hset, verify_checksum_append (leBytes_length 2 _)]
        rw [leVal_leBytes_two hclt]
        have hne := crcFold_set_ne (frameBody t payload) (j + 2) k
          (s := 0xFFFF) (by norm_num) hcb hk hbb
        exact beq_eq_false_iff_ne.mpr (Ne.symm hne)
  · push_neg at hcb
    have hset : flipBit (mkFrame t payload) i k =
        frameBody t payload ++
          (leBytes 2 (calculate_checksum (frameBody t payload))).set
            (i - (frameBody t payload).length)
            ((leBytes 2 (calculate_checksum (frameBody t payload))).getD
              (i - (frameBody t payload).length) 0 ^^^ 1 <<< k) := by
      rw [mkFrame_body]
      unfold flipBit
      rw [List.getD_append_right _ _ _ _ hcb, List.set_append_right _ _ hcb]
    apply parse_packet_checksum_bad zd jl h5
    · rw [hset, List.take_append_of_le_length (by rw [hbl]; omega)]
      have htake : (frameBody t payload).take 2 = [187, 170] := rfl
      rw [htake, leVal_pair, HEADER_MAGIC]
    · rw [hset, verify_checksum_append (by rw [List.length_set, leBytes_length])]
      have hj : i - (frameBody t payload).length = 0 ∨
          i - (frameBody t payload).length = 1 := by omega
      rcases hj with hj | hj <;> rw [hj, leBytes_two]
      · have hlist : ([calculate_checksum (frameBody t payload) % 256,
            calculate_checksum (frameBody t payload) / 256 % 256].set 0
            ([calculate_checksum (frameBody t payload) % 256,
              calculate_checksum (frameBody t payload) / 256 % 256].getD 0 0 ^^^ 1 <<< k)) =
            [calculate_checksum (frameBody t payload) % 256 ^^^ 1 <<< k,
              calculate_checksum (frameBody t payload) / 256 % 256] := rfl
        rw [hlist, leVal_pair]
        apply beq_eq_false_iff_ne.mpr
        intro hcon
        have hxne : calculate_checksum (frameBody t payload) % 256 ^^^ 1 <<< k ≠
            calculate_checksum (frameBody t payload) % 256 := by
          rw [Nat.one_shiftLeft]
          exact xor_pow_ne k
        have hxlt : calculate_checksum (frameBody t payload) % 256 ^^^ 1 <<< k < 256 :=
          xor_flip_lt_256 (by omega) hk
        omega
      · have hlist : ([calculate_checksum (frameBody t payload) % 256,
            calculate_checksum (frameBody t payload) / 256 % 256].set 1
            ([calculate_checksum (frameBody t payload) % 256,
              calculate_checksum (frameBody t payload) / 256 % 256].getD 1 0 ^^^ 1 <<< k)) =
            [calculate_checksum (frameBody t payload) % 256,
              calculate_checksum (frameBody t payload) / 256 % 256 ^^^ 1 <<< k] := rfl
        rw [hlist, leVal_pair]
        apply beq_eq_false_iff_ne.mpr
        intro hcon
        have hxne : calculate_checksum (frameBody t payload) / 256 % 256 ^^^ 1 <<< k ≠
            calculate_checksum (frameBody t payload) / 256 % 256 := by
          rw [Nat.one_shiftLeft]
          exact xor_pow_ne k
        have hxlt : calculate_checksum (frameBody t payload) / 256 % 256 ^^^ 1 <<< k < 256 :=
          xor_flip_lt_256 (by omega) hk
        omega

/-- C4: the frame checksum is exactly the spec's CRC16 — initial value
0xFFFF, reflected polynomial 0xA001, processed byte-by-byte LSB-first
over every byte preceding the checksum field (`checksum_eq_spec`); every
frame `build_packet` emits has the `mkFrame` shape, whose trailing field
stores that CRC of all preceding bytes; and flipping any single bit
anywhere in such a frame makes `parse_packet` reject it. -/
theorem claim_C4 :
    (∀ data : List Nat, (∀ b ∈ data, b < 256) →
      calculate_checksum data = crc16_spec data) ∧
    (∀ (zc : List Nat → Option (List Nat)) (en : Bool) (seq t : Nat)
        (payload f : List Nat) (s' : Nat),
        build_packet zc en seq t payload = some (f, s') →
        ∃ t' p', f = mkFrame t' p') ∧
    (∀ (zd : List Nat → Option (List Nat)) (jl : List Nat → Option EventData)
        (t : Nat) (payload : List Nat) (i k : Nat),
        t < 256 → (∀ b ∈ payload, b < 256) →
        i < (mkFrame t payload).length → k < 8 →
        parse_packet zd jl (flipBit (mkFrame t payload) i k) = none) := by
  refine ⟨checksum_eq_spec, ?_, ?_⟩
  · intro zc en seq t payload f s' h
    rcases (build_packet_shape h).2 with hf | ⟨c, _, _, _, _, hf⟩
    · exact ⟨t, payload, hf⟩
    · exact ⟨t ||| 128, c, hf⟩
  · intro zd jl t payload i k ht hp hi hk
    exact parse_flip_none zd jl t payload ht hp i k hi hk

theorem claim_C4_witness :
    calculate_checksum [0, 255] = crc16_spec [0, 255] ∧
    (∃ t' p', mkFrame 1 [7] = mkFrame t' p') ∧
    parse_packet zlibNone jlNone (flipBit (mkFrame 1 [7]) 3 0) = none :=
  ⟨claim_C4.1 [0, 255] (by decide),
   claim_C4.2.1 zlibNone false 0 1 [7] (mkFrame 1 [7]) 1 rfl,
   claim_C4.2.2 zlibNone jlNone 1 [7] 3 0 (by decide) (by decide)
     (by decide) (by decide)⟩
